import Mathlib

/-!
# Millie Dashboard: task repository (src/js/app.js, src/js/features.js)

A shallow embedding of the task repository of `src/js/app.js`: the module-level
`state` object, the `localStorage` item written by `saveState` and read by
`loadState`, the operations `logAction`, `generateId`, `createTask`,
`updateTask`, `deleteTask` and `moveTask`, and the derived views
(`renderColumns`, `renderStats`, the overdue flag of `renderCard`); and of the
parts of `src/js/features.js` that work on it: `getWeeklySummary`,
`checkRecurringTasks`, `shouldRecurringTaskRun` and `updateProjectProgress`.

Modelling conventions.

* JavaScript values that reach the task fields are strings, `null` or
  `undefined` (`JSVal`).  Objects passed to `createTask` and `updateTask` are
  records of optional properties (`Fields`): `none` is a property that is not
  there, `some v` a property holding `v`.  Properties other than the nine task
  fields are not represented.
* What the platform answers during one call (clock readings, the random
  suffix, whether `localStorage.setItem` throws) is passed to the operation in
  an environment record, one field per place where the source asks.
* The DOM rendering functions (`render`, `renderActionLog`, `updateSyncTime`)
  do not write to `state` or to the store and are left out of the state
  transformers.
-/

namespace Millie

/-! ## Values and records -/

/-- The JavaScript values a task field can hold. -/
inductive JSVal where
  | undefined
  | null
  | str (s : String)
  deriving DecidableEq, Repr

/-- JavaScript truthiness: `undefined`, `null` and the empty string are falsy. -/
def JSVal.truthy : JSVal → Bool
  | .str s => s != ""
  | _ => false

/-- The string a value becomes inside a template literal. -/
def JSVal.toStr : JSVal → String
  | .undefined => "undefined"
  | .null => "null"
  | .str s => s

/-- The expression `a || b`. -/
def jsOr (a b : JSVal) : JSVal := if a.truthy then a else b

/-- A task record, as built by `createTask`. -/
structure Task where
  id : JSVal
  title : JSVal
  description : JSVal
  project : JSVal
  priority : JSVal
  dueDate : JSVal
  column : JSVal
  createdAt : JSVal
  completedAt : JSVal
  deriving DecidableEq, Repr

/-- An object carrying any subset of the task fields: the `data` argument of
`createTask` and the `updates` argument of `updateTask`. -/
structure Fields where
  id : Option JSVal := none
  title : Option JSVal := none
  description : Option JSVal := none
  project : Option JSVal := none
  priority : Option JSVal := none
  dueDate : Option JSVal := none
  column : Option JSVal := none
  createdAt : Option JSVal := none
  completedAt : Option JSVal := none
  deriving DecidableEq, Repr

/-- Reading a property: a property that is not there reads as `undefined`. -/
def readProp (o : Option JSVal) : JSVal := o.getD .undefined

/-- An entry of the action log. -/
structure LogEntry where
  time : String
  text : String
  deriving DecidableEq, Repr

/-- A deliverable descriptor (display only). -/
structure Deliverable where
  id : String
  name : String
  icon : String
  frequency : String
  time : String
  deriving DecidableEq, Repr

/-- The module-level `state` object. -/
structure AppState where
  tasks : List Task
  actionLog : List LogEntry
  deliverables : List Deliverable
  deriving DecidableEq, Repr

/-- The in-memory `state` together with the content of the `localStorage` item
`millie_dashboard_data` (`none` while nothing has been written). -/
structure World where
  state : AppState
  store : Option AppState
  deriving DecidableEq, Repr

/-! ## Platform answers -/

/-- Answers of the platform during one `logAction` call. -/
structure LogEnv where
  /-- Value of `new Date().toISOString()` in `logAction`. -/
  now : String
  /-- Whether `localStorage.setItem` returns normally in its `saveState`. -/
  writeOk : Bool
  deriving DecidableEq, Repr

/-- Answers of the platform during one `createTask` call. -/
structure CreateEnv where
  /-- Value of `Date.now()` in `generateId`. -/
  dateNow : Nat
  /-- Value of `Math.random().toString(36).substr(2, 9)` in `generateId`. -/
  random : String
  /-- Value of `new Date().toISOString()` for `createdAt`. -/
  now : String
  /-- Whether the write of `saveState()` after the push succeeds. -/
  writeOk : Bool
  /-- Answers for the nested `logAction`. -/
  log : LogEnv
  deriving DecidableEq, Repr

/-- Answers of the platform during one `updateTask` call. -/
structure UpdateEnv where
  /-- Value of `new Date().toISOString()` for `completedAt`. -/
  now : String
  /-- Answers for the nested `logAction`, when one is made. -/
  log : LogEnv
  /-- Whether the write of the final `saveState()` succeeds. -/
  writeOk : Bool
  deriving DecidableEq, Repr

/-- Answers of the platform during one `deleteTask` call. -/
structure DeleteEnv where
  /-- Answers for the nested `logAction`, when one is made. -/
  log : LogEnv
  /-- Whether the write of the final `saveState()` succeeds. -/
  writeOk : Bool
  deriving DecidableEq, Repr

/-! ## Operations -/

/-- `saveState`: writes the whole `state` to the store; a failing write is
caught and leaves the store as it was. -/
def saveState (ok : Bool) (w : World) : World :=
  if ok then { w with store := some w.state } else w

/-- `logAction`: `unshift` the entry, keep `slice(0, 50)`, save. -/
def logAction (e : LogEnv) (text : String) (w : World) : World :=
  let entry : LogEntry := { time := e.now, text := text }
  let log1 := entry :: w.state.actionLog
  saveState e.writeOk { w with state := { w.state with actionLog := log1.take 50 } }

/-- `generateId`: `'task_' + Date.now() + '_' + <random suffix>`. -/
def generateId (dateNow : Nat) (random : String) : String :=
  "task_" ++ toString dateNow ++ "_" ++ random

/-- `createTask`: build the record, push it, save, log, return it. -/
def createTask (e : CreateEnv) (data : Fields) (w : World) : Task × World :=
  let task : Task :=
    { id := .str (generateId e.dateNow e.random)
      title := readProp data.title
      description := jsOr (readProp data.description) (.str "")
      project := jsOr (readProp data.project) (.str "")
      priority := jsOr (readProp data.priority) (.str "medium")
      dueDate := jsOr (readProp data.dueDate) .null
      column := jsOr (readProp data.column) (.str "todo")
      createdAt := .str e.now
      completedAt := .null }
  let w1 := { w with state := { w.state with tasks := w.state.tasks ++ [task] } }
  let w2 := saveState e.writeOk w1
  let w3 := logAction e.log ("Created task: " ++ task.title.toStr) w2
  (task, w3)

/-- `Array.prototype.findIndex`, with `none` for `-1`. -/
def findIndex (p : Task → Bool) : List Task → Option Nat
  | [] => none
  | t :: ts => if p t then some 0 else (findIndex p ts).map (· + 1)

/-- The object spread `{ ...task, ...updates }`. -/
def merge (task : Task) (updates : Fields) : Task :=
  { id := updates.id.getD task.id
    title := updates.title.getD task.title
    description := updates.description.getD task.description
    project := updates.project.getD task.project
    priority := updates.priority.getD task.priority
    dueDate := updates.dueDate.getD task.dueDate
    column := updates.column.getD task.column
    createdAt := updates.createdAt.getD task.createdAt
    completedAt := updates.completedAt.getD task.completedAt }

/-- The block "Track column changes" of `updateTask`: the `updates` object
after the block (with `completedAt` assigned when the task enters `done`) and
the world after the `logAction` call of the branch taken. -/
def trackColumn (e : UpdateEnv) (task : Task) (updates : Fields) (w : World) :
    Fields × World :=
  let c := readProp updates.column
  if c.truthy = true ∧ c ≠ task.column then
    if c = .str "done" ∧ task.column ≠ .str "done" then
      ({ updates with completedAt := some (.str e.now) },
        logAction e.log ("Completed: " ++ task.title.toStr) w)
    else if c = .str "archived" then
      (updates, logAction e.log ("Archived: " ++ task.title.toStr) w)
    else
      (updates,
        logAction e.log ("Moved \"" ++ task.title.toStr ++ "\" to " ++ c.toStr) w)
  else
    (updates, w)

/-- `updateTask`: `none` is the returned `null`.  The index returned by
`findIndex` is always in range (`findIndex_some`), so the inner `none` branch
is never taken. -/
def updateTask (e : UpdateEnv) (id : JSVal) (updates : Fields) (w : World) :
    Option Task × World :=
  match findIndex (fun t => t.id = id) w.state.tasks with
  | none => (none, w)
  | some index =>
    match w.state.tasks[index]? with
    | none => (none, w)
    | some task =>
      let r := trackColumn e task updates w
      let merged := merge task r.1
      let w1 := r.2
      let w2 := { w1 with state := { w1.state with tasks := w1.state.tasks.set index merged } }
      (some merged, saveState e.writeOk w2)

/-- `deleteTask`: log when a task is found, filter, save. -/
def deleteTask (e : DeleteEnv) (id : JSVal) (w : World) : World :=
  let w1 :=
    match w.state.tasks.find? (fun t => t.id = id) with
    | some task => logAction e.log ("Deleted: " ++ task.title.toStr) w
    | none => w
  let w2 := { w1 with state := { w1.state with tasks := w1.state.tasks.filter (fun t => t.id ≠ id) } }
  saveState e.writeOk w2

/-- `moveTask`: `updateTask(taskId, { column: toColumn })`, result dropped. -/
def moveTask (e : UpdateEnv) (taskId : JSVal) (toColumn : JSVal) (w : World) : World :=
  (updateTask e taskId { column := some toColumn } w).2

/-- `renderStats`: the three headline counts `(todo, progress, done)`. -/
def renderStats (s : AppState) : Nat × Nat × Nat :=
  ((s.tasks.filter (fun t => t.column = .str "todo")).length,
   (s.tasks.filter (fun t => t.column = .str "progress")).length,
   (s.tasks.filter (fun t => t.column = .str "done")).length)

/-! ## Sequences of calls -/

/-- One call of the public task operations. -/
inductive Op where
  | create (e : CreateEnv) (data : Fields)
  | update (e : UpdateEnv) (id : JSVal) (updates : Fields)
  | move (e : UpdateEnv) (id : JSVal) (toColumn : JSVal)
  | delete (e : DeleteEnv) (id : JSVal)
  deriving DecidableEq, Repr

/-- The world after one call. -/
def step (w : World) : Op → World
  | .create e data => (createTask e data w).2
  | .update e id updates => (updateTask e id updates w).2
  | .move e id toColumn => moveTask e id toColumn w
  | .delete e id => deleteTask e id w

/-- The world after a sequence of calls, first call first. -/
def run (ops : List Op) (w : World) : World := ops.foldl step w

/-- The state of a freshly loaded page with nothing stored: no tasks, no log. -/
def emptyWorld (ds : List Deliverable) : World :=
  { state := { tasks := [], actionLog := [], deliverables := ds }, store := none }

/-- A sequence of `moveTask` calls on one task id, first call first. -/
def runMoves (id : JSVal) (ms : List (UpdateEnv × JSVal)) (w : World) : World :=
  ms.foldl (fun acc m => moveTask m.1 id m.2 acc) w

/-- The task stored at position `i`. -/
def taskAt (w : World) (i : Nat) : Option Task := w.state.tasks[i]?

/-- A sequence of `logAction` calls, first call first. -/
def runLog (es : List (LogEnv × String)) (w : World) : World :=
  es.foldl (fun acc x => logAction x.1 x.2 acc) w

/-- The log entry written by one `logAction` call. -/
def entryOf (x : LogEnv × String) : LogEntry := { time := x.1.now, text := x.2 }

/-- Side condition on one call: an `updateTask` call carries neither an `id`
nor a `completedAt` property. -/
def plainOp : Op → Bool
  | .update _ _ updates => updates.id.isNone && updates.completedAt.isNone
  | _ => true

/-- The four column names of the board. -/
def validColumn (v : JSVal) : Bool :=
  v = .str "todo" || v = .str "progress" || v = .str "done" || v = .str "archived"

/-- Side condition on one call: the column it passes, when it passes one, is
one of the four column names (`createTask` may also pass a falsy column, which
it replaces by `todo`). -/
def opColumnValid : Op → Bool
  | .create _ data => !(readProp data.column).truthy || validColumn (readProp data.column)
  | .update _ _ updates =>
    match updates.column with
    | none => true
    | some c => validColumn c
  | .move _ _ toColumn => validColumn toColumn
  | .delete _ _ => true

/-! ## Persistence: the stored text as a tree -/

/-- The tree that `JSON.stringify` writes and `JSON.parse` reads back, as far
as the repository state needs it. -/
inductive Json where
  | null
  | str (s : String)
  | arr (xs : List Json)
  | obj (kvs : List (String × Json))

/-- One property in the output of `JSON.stringify`: a property holding
`undefined` is left out. -/
def encodeField (k : String) : JSVal → List (String × Json)
  | .undefined => []
  | .null => [(k, .null)]
  | .str s => [(k, .str s)]

/-- `JSON.stringify` of a task record. -/
def Task.toJson (t : Task) : Json :=
  .obj (encodeField "id" t.id ++ (encodeField "title" t.title
    ++ (encodeField "description" t.description ++ (encodeField "project" t.project
    ++ (encodeField "priority" t.priority ++ (encodeField "dueDate" t.dueDate
    ++ (encodeField "column" t.column ++ (encodeField "createdAt" t.createdAt
    ++ (encodeField "completedAt" t.completedAt ++ [])))))))))

/-- `JSON.stringify` of a log entry. -/
def LogEntry.toJson (x : LogEntry) : Json :=
  .obj [("time", .str x.time), ("text", .str x.text)]

/-- `JSON.stringify` of a deliverable. -/
def Deliverable.toJson (d : Deliverable) : Json :=
  .obj [("id", .str d.id), ("name", .str d.name), ("icon", .str d.icon),
    ("frequency", .str d.frequency), ("time", .str d.time)]

/-- `JSON.stringify(state)`. -/
def stringify (s : AppState) : Json :=
  .obj [("tasks", .arr (s.tasks.map Task.toJson)),
    ("actionLog", .arr (s.actionLog.map LogEntry.toJson)),
    ("deliverables", .arr (s.deliverables.map Deliverable.toJson))]

/-- Looking a key up in the properties of a parsed object. -/
def lookupKey (k : String) : List (String × Json) → Option Json
  | [] => none
  | (k1, v) :: rest => if k1 = k then some v else lookupKey k rest

/-- Reading the property `k` of a parsed value. -/
def Json.get (j : Json) (k : String) : Option Json :=
  match j with
  | .obj kvs => lookupKey k kvs
  | _ => none

/-- The value read from a property of a parsed object: a missing property
reads as `undefined`.  Arrays and objects do not occur as task fields. -/
def Json.toJSVal : Option Json → JSVal
  | some .null => .null
  | some (.str s) => .str s
  | _ => .undefined

/-- The string read from a property of a parsed object that holds one. -/
def Json.toString : Option Json → String
  | some (.str s) => s
  | _ => ""

/-- A parsed task object, seen through its nine fields. -/
def decodeTask (j : Json) : Task :=
  { id := Json.toJSVal (j.get "id")
    title := Json.toJSVal (j.get "title")
    description := Json.toJSVal (j.get "description")
    project := Json.toJSVal (j.get "project")
    priority := Json.toJSVal (j.get "priority")
    dueDate := Json.toJSVal (j.get "dueDate")
    column := Json.toJSVal (j.get "column")
    createdAt := Json.toJSVal (j.get "createdAt")
    completedAt := Json.toJSVal (j.get "completedAt") }

/-- A parsed log entry object. -/
def decodeLogEntry (j : Json) : LogEntry :=
  { time := Json.toString (j.get "time"), text := Json.toString (j.get "text") }

/-- A parsed deliverable object. -/
def decodeDeliverable (j : Json) : Deliverable :=
  { id := Json.toString (j.get "id"), name := Json.toString (j.get "name"),
    icon := Json.toString (j.get "icon"), frequency := Json.toString (j.get "frequency"),
    time := Json.toString (j.get "time") }

/-- The constant `DEFAULT_DELIVERABLES`. -/
def DEFAULT_DELIVERABLES : List Deliverable :=
  [{ id := "daily-brief", name := "Daily Brief", icon := "☀️", frequency := "Daily",
     time := "7:00 AM" },
   { id := "ark-tracking", name := "ARK Tracking", icon := "📈", frequency := "Daily",
     time := "7:00 AM" },
   { id := "weekly-report", name := "Weekly Report", icon := "📊", frequency := "Weekly",
     time := "Friday" },
   { id := "security-audit", name := "Security Audit", icon := "🔒", frequency := "Monthly",
     time := "1st" }]

/-- The `state` object as the module initialises it. -/
def initialState : AppState :=
  { tasks := [], actionLog := [], deliverables := DEFAULT_DELIVERABLES }

/-- The expression `parsed.<k> || dflt` for a property expected to hold an
array: the decoded elements of the array, `dflt` when the property is
missing or `null`. -/
def arrayOr {α : Type} (j : Option Json) (decode : Json → α) (dflt : List α) : List α :=
  match j with
  | some (.arr xs) => xs.map decode
  | _ => dflt

/-- `loadState`: with no item in the store `state` is left alone; otherwise
the item is parsed and its three properties are assigned.  The store of the
model only ever holds what `saveState` wrote, so the item parses and the
`catch` branch is not taken. -/
def loadState (w : World) : World :=
  match w.store with
  | none => w
  | some s =>
    let parsed := stringify s
    { w with state :=
        { tasks := arrayOr (parsed.get "tasks") decodeTask []
          actionLog := arrayOr (parsed.get "actionLog") decodeLogEntry []
          deliverables := arrayOr (parsed.get "deliverables") decodeDeliverable
            DEFAULT_DELIVERABLES } }

/-! ## Derived views -/

/-- The value of `new Date(v)` as a time in milliseconds, `none` for an
invalid date.  `parseDate` is the platform's reading of a date string. -/
def newDate (parseDate : String → Option Int) : JSVal → Option Int
  | .str s => parseDate s
  | .null => some 0
  | .undefined => none

/-- The comparison `a < b` of two dates; an invalid date compares `false`. -/
def dateLt : Option Int → Option Int → Bool
  | some a, some b => a < b
  | _, _ => false

/-- The flag `isOverdue` of `renderCard`, `now` being the value of
`new Date()`. -/
def isOverdue (parseDate : String → Option Int) (now : Int) (task : Task) : Bool :=
  task.dueDate.truthy && dateLt (newDate parseDate task.dueDate) (some now)
    && task.column != .str "done" && task.column != .str "archived"

/-- The object returned by `getWeeklySummary`. -/
structure WeeklySummary where
  completed : Nat
  completedTasks : List Task
  inProgress : Nat
  overdue : Nat
  overdueTasks : List Task

/-- `getWeeklySummary`, `now` being the value of `new Date()` and `s` the
object returned by `getState()`. -/
def getWeeklySummary (parseDate : String → Option Int) (now : Int) (s : AppState) :
    WeeklySummary :=
  let weekAgo : Int := now - 7 * 24 * 60 * 60 * 1000
  let tasks := s.tasks
  let completed := tasks.filter (fun t =>
    t.column = .str "done" && t.completedAt.truthy
      && dateLt (some weekAgo) (newDate parseDate t.completedAt))
  let inProgress := tasks.filter (fun t => t.column = .str "progress")
  let overdue := tasks.filter (fun t =>
    t.dueDate.truthy && dateLt (newDate parseDate t.dueDate) (some now)
      && t.column != .str "done" && t.column != .str "archived")
  { completed := completed.length
    completedTasks := completed
    inProgress := inProgress.length
    overdue := overdue.length
    overdueTasks := overdue }

/-- The list `columns` of `renderColumns`. -/
def boardColumns : List String := ["todo", "progress", "done", "archived"]

/-- The list `tasks` that `renderColumns` computes for one column. -/
def columnTasks (s : AppState) (column : String) : List Task :=
  s.tasks.filter (fun t => t.column = .str column)

/-- `renderColumns`: for each column in turn, the cards shown and the count
written next to the column title. -/
def renderColumns (s : AppState) : List (String × List Task × Nat) :=
  boardColumns.map (fun column => (column, columnTasks s column, (columnTasks s column).length))

/-! ## Extended features (src/js/features.js) -/

/-- A recurring task definition of `featuresState.recurringTasks`. -/
structure RecurringTask where
  id : JSVal
  title : JSVal
  frequency : JSVal
  day : JSVal
  lastRun : JSVal
  deriving DecidableEq, Repr

/-- A record of `featuresState.projectProgress`. -/
structure ProjectRecord where
  progress : Int
  status : JSVal
  deriving DecidableEq, Repr

/-- The part of `featuresState` that `checkRecurringTasks` and
`updateProjectProgress` read and write; `goals` and `todos` are not touched by
them and are left out.  `projectProgress` gives the own properties of the
plain object: `none` where the object has no property of that name. -/
structure FeaturesState where
  recurringTasks : List RecurringTask
  projectProgress : String → Option ProjectRecord

/-- The property names that a plain object inherits from `Object.prototype`.
Reading one of them on an object without an own property of that name gives
the inherited function or object, which is truthy. -/
def objectPrototypeNames : List String :=
  ["constructor", "__proto__", "hasOwnProperty", "isPrototypeOf", "propertyIsEnumerable",
   "toLocaleString", "toString", "valueOf", "__defineGetter__", "__defineSetter__",
   "__lookupGetter__", "__lookupSetter__"]

/-- The in-memory `featuresState` together with the content of the
`localStorage` item `millie_dashboard_features`. -/
structure FeaturesWorld where
  state : FeaturesState
  store : Option FeaturesState
  /-- The writes of `progress` that landed on a value inherited from
  `Object.prototype` instead of a record of `projectProgress`, newest first:
  the name looked up and the number written. -/
  inheritedProgress : List (String × Int) := []

/-- The three readings that the code takes of the `Date` object `now`. -/
structure DateView where
  /-- Value of `now.toISOString().split('T')[0]`: the calendar date in UTC. -/
  isoDate : String
  /-- Value of `now.toLocaleDateString('en-US', { weekday: 'long' })`: the
  weekday name in local time. -/
  weekday : String
  /-- Value of `now.getDate().toString()`: the day of the month in local
  time. -/
  dayOfMonth : String
  deriving DecidableEq, Repr

/-- Answers of the platform during one `checkRecurringTasks` call. -/
structure RecurEnv where
  /-- The readings of `new Date()`. -/
  now : DateView
  /-- Whether `window.MillieDashboard` is set (it is once `app.js` has run). -/
  dashboard : Bool
  /-- Answers for the `createTask` call made for the definition at a given
  position of the list. -/
  create : Nat → CreateEnv
  /-- Whether the write of `saveFeaturesState()` succeeds. -/
  writeOk : Bool

/-- `saveFeaturesState`: a failing write is caught. -/
def saveFeaturesState (ok : Bool) (f : FeaturesWorld) : FeaturesWorld :=
  if ok then { f with store := some f.state } else f

/-- `shouldRecurringTaskRun(rt, now)`. -/
def shouldRecurringTaskRun (rt : RecurringTask) (now : DateView) : Bool :=
  let dayOfWeek := now.weekday
  let dayOfMonth := now.dayOfMonth
  if rt.frequency = .str "daily" then true
  else if rt.frequency = .str "weekly" then JSVal.str dayOfWeek = rt.day
  else if rt.frequency = .str "monthly" then JSVal.str dayOfMonth = rt.day
  else false

/-- The `forEach` loop of `checkRecurringTasks`, from the definition at
position `k` on: the definitions after the loop and the task repository
after the `createTask` calls. -/
def checkLoop (e : RecurEnv) (today : String) :
    Nat → List RecurringTask → World → List RecurringTask × World
  | _, [], w => ([], w)
  | k, rt :: rest, w =>
    let shouldRun := shouldRecurringTaskRun rt e.now
    if shouldRun = true ∧ rt.lastRun ≠ .str today then
      let w1 :=
        if e.dashboard then
          (createTask (e.create k)
            { title := some rt.title, column := some (.str "todo"),
              priority := some (.str "medium") } w).2
        else w
      let r := checkLoop e today (k + 1) rest w1
      ({ rt with lastRun := .str today } :: r.1, r.2)
    else
      let r := checkLoop e today (k + 1) rest w
      (rt :: r.1, r.2)

/-- `checkRecurringTasks`. -/
def checkRecurringTasks (e : RecurEnv) (f : FeaturesWorld) (w : World) :
    FeaturesWorld × World :=
  let now := e.now
  let today := now.isoDate
  let r := checkLoop e today 0 f.state.recurringTasks w
  (saveFeaturesState e.writeOk { f with state := { f.state with recurringTasks := r.1 } }, r.2)

/-- Whether `featuresState.projectProgress[projectId]` is truthy: the object
has a record of that name, or the name is inherited from `Object.prototype`. -/
def readsTruthy (pp : String → Option ProjectRecord) (projectId : String) : Bool :=
  (pp projectId).isSome || projectId ∈ objectPrototypeNames

/-- `updateProjectProgress`.  When the lookup is falsy a record
`{ progress: 0, status: 'active' }` is stored under the id.  The assignment to
`featuresState.projectProgress[projectId].progress` then writes to the record
of that name or, when the object has none and the lookup found an inherited
value, to that inherited value, leaving `projectProgress` as it was. -/
def updateProjectProgress (ok : Bool) (projectId : String) (progress : Int)
    (f : FeaturesWorld) : FeaturesWorld :=
  let pp1 : String → Option ProjectRecord :=
    if !(readsTruthy f.state.projectProgress projectId) then
      fun k => if k = projectId then some { progress := 0, status := .str "active" }
        else f.state.projectProgress k
    else f.state.projectProgress
  let clamped : Int := min 100 (max 0 progress)
  match pp1 projectId with
  | some r =>
    saveFeaturesState ok
      { f with state := { f.state with
          projectProgress := fun k =>
            if k = projectId then some { r with progress := clamped } else pp1 k } }
  | none =>
    saveFeaturesState ok
      { f with
          state := { f.state with projectProgress := pp1 }
          inheritedProgress := (projectId, clamped) :: f.inheritedProgress }

/-- Whether `checkRecurringTasks` acts on a definition: it should run and its
`lastRun` is not today. -/
def isDue (now : DateView) (rt : RecurringTask) : Bool :=
  shouldRecurringTaskRun rt now && rt.lastRun != .str now.isoDate

/-- The features state after `loadFeaturesState` on a first visit: a record
with status `active` for each of the five `PROJECTS` (their mock progress,
drawn by the source at random between 10 and 69, is fixed here) and the three
sample recurring definitions. -/
def sampleFeatures : FeaturesWorld :=
  { state :=
      { recurringTasks :=
          [{ id := .str "r1", title := .str "Weekly team sync", frequency := .str "weekly",
             day := .str "Monday", lastRun := .null },
           { id := .str "r2", title := .str "Review financials", frequency := .str "monthly",
             day := .str "1", lastRun := .null },
           { id := .str "r3", title := .str "Check ARK trades", frequency := .str "daily",
             day := .undefined, lastRun := .null }]
        projectProgress := fun k =>
          if k = "rise" then some { progress := 37, status := .str "active" }
          else if k = "rentwise" then some { progress := 52, status := .str "active" }
          else if k = "ai-factory" then some { progress := 18, status := .str "active" }
          else if k = "scorecard" then some { progress := 64, status := .str "active" }
          else if k = "ardexa" then some { progress := 25, status := .str "active" }
          else none }
    store := none }

/-- Platform answers for a `checkRecurringTasks` call made at millisecond
`ms`, all writes succeeding, the `createTask` call for position `k` reading
the millisecond `ms + k`. -/
def recurEnvAt (now : DateView) (ms : Nat) : RecurEnv :=
  { now := now, dashboard := true,
    create := fun k =>
      { dateNow := ms + k, random := "k3j9x0qzp", now := now.isoDate, writeOk := true,
        log := { now := now.isoDate, writeOk := true } },
    writeOk := true }

/-- Readings of the clock at 2024-01-15T23:00:00Z in a browser five hours
behind UTC: local time is Monday 15 January, 18:00. -/
def mondayEvening : DateView :=
  { isoDate := "2024-01-15", weekday := "Monday", dayOfMonth := "15" }

/-- Readings of the clock at 2024-01-16T01:00:00Z in the same browser: local
time is still Monday 15 January, 20:00, while the UTC date is 16 January. -/
def mondayNight : DateView :=
  { isoDate := "2024-01-16", weekday := "Monday", dayOfMonth := "15" }

/-! ## Sample inputs -/

/-- Platform answers for an `updateTask` call made at time `t`, all writes
succeeding. -/
def envAt (t : String) : UpdateEnv :=
  { now := t, log := { now := t, writeOk := true }, writeOk := true }

/-- Platform answers for the `createTask` call of the sample world. -/
def sampleCreateEnv : CreateEnv :=
  { dateNow := 1700000000000, random := "k3j9x0qzp", now := "2023-11-14T22:13:20.000Z",
    writeOk := true, log := { now := "2023-11-14T22:13:20.001Z", writeOk := true } }

/-- The id handed out in the sample world. -/
def sampleId : JSVal := .str (generateId 1700000000000 "k3j9x0qzp")

/-- Scenario A of the specification: one task "Write report" created in
`todo` on an empty board. -/
def sampleWorld : World :=
  (createTask sampleCreateEnv
    { title := some (.str "Write report"), column := some (.str "todo") } (emptyWorld [])).2

/-- The task of the sample world. -/
def sampleTask : Task :=
  { id := sampleId, title := .str "Write report", description := .str "", project := .str "",
    priority := .str "medium", dueDate := .null, column := .str "todo",
    createdAt := .str "2023-11-14T22:13:20.000Z", completedAt := .null }

/-! ## Basic facts -/

theorem saveState_state (ok : Bool) (w : World) : (saveState ok w).state = w.state := by
  unfold saveState; split <;> rfl

theorem logAction_tasks (e : LogEnv) (text : String) (w : World) :
    (logAction e text w).state.tasks = w.state.tasks := by
  simp [logAction, saveState_state]

theorem logAction_actionLog (e : LogEnv) (text : String) (w : World) :
    (logAction e text w).state.actionLog
      = ({ time := e.now, text := text } :: w.state.actionLog).take 50 := by
  simp [logAction, saveState_state]

theorem findIndex_some {p : Task → Bool} {l : List Task} {i : Nat}
    (h : findIndex p l = some i) : ∃ t, l[i]? = some t ∧ p t = true := by
  induction l generalizing i with
  | nil => simp [findIndex] at h
  | cons a l ih =>
    unfold findIndex at h
    by_cases hp : p a = true
    · simp [hp] at h
      subst h
      exact ⟨a, by simp, hp⟩
    · simp [hp] at h
      obtain ⟨j, hj, rfl⟩ := h
      obtain ⟨t, ht, hpt⟩ := ih hj
      exact ⟨t, by simpa using ht, hpt⟩

theorem findIndex_none {p : Task → Bool} {l : List Task} :
    findIndex p l = none ↔ ∀ t ∈ l, p t = false := by
  induction l with
  | nil => simp [findIndex]
  | cons a l ih =>
    unfold findIndex
    by_cases hp : p a = true
    · simp [hp]
    · simp [hp, ih]

theorem findIndex_set {p : Task → Bool} {l : List Task} {i : Nat} {t u : Task}
    (ht : l[i]? = some t) (hp : p u = p t) :
    findIndex p (l.set i u) = findIndex p l := by
  induction l generalizing i with
  | nil => simp at ht
  | cons a l ih =>
    cases i with
    | zero =>
      simp at ht
      subst ht
      simp [findIndex, hp]
    | succ j =>
      simp at ht
      simp [findIndex, ih ht]

theorem trackColumn_tasks (e : UpdateEnv) (task : Task) (updates : Fields) (w : World) :
    (trackColumn e task updates w).2.state.tasks = w.state.tasks := by
  unfold trackColumn
  simp only
  split_ifs <;> simp [logAction_tasks]

/-- What `updateTask` returns and stores when the id is found at index `i`. -/
theorem updateTask_found (e : UpdateEnv) (updates : Fields) {id : JSVal} {w : World}
    {i : Nat} {task : Task}
    (hi : findIndex (fun t => t.id = id) w.state.tasks = some i)
    (ht : w.state.tasks[i]? = some task) :
    (updateTask e id updates w).1 = some (merge task (trackColumn e task updates w).1)
    ∧ (updateTask e id updates w).2.state.tasks
        = w.state.tasks.set i (merge task (trackColumn e task updates w).1)
    ∧ (updateTask e id updates w).2.state.actionLog
        = (trackColumn e task updates w).2.state.actionLog := by
  unfold updateTask
  simp only [hi, ht, saveState_state, trackColumn_tasks, and_self]

/-- The `updates` object after the block "Track column changes", for a call
that carries only a column. -/
theorem trackColumn_move_fields (e : UpdateEnv) (task : Task) (c : JSVal) (w : World) :
    (trackColumn e task { column := some c } w).1
      = { column := some c,
          completedAt := if c = .str "done" ∧ task.column ≠ .str "done"
            then some (.str e.now) else none } := by
  unfold trackColumn
  by_cases h1 : c = .str "done" ∧ task.column ≠ .str "done"
  · obtain ⟨rfl, h⟩ := h1
    have h2 : (JSVal.str "done").truthy = true := by decide
    have h3 : ¬ JSVal.str "done" = task.column := fun h4 => h h4.symm
    simp [readProp, h, h2, h3]
  · simp only [readProp, Option.getD_some, h1, if_false]
    split_ifs <;> rfl

/-- The task stored after a `moveTask` call on an existing task. -/
theorem moveTask_task (e : UpdateEnv) (c : JSVal) {id : JSVal} {w : World} {i : Nat}
    {task : Task}
    (hi : findIndex (fun t => t.id = id) w.state.tasks = some i)
    (ht : w.state.tasks[i]? = some task) :
    findIndex (fun t => t.id = id) (moveTask e id c w).state.tasks = some i
    ∧ taskAt (moveTask e id c w) i
        = some { task with
            column := c
            completedAt := if c = .str "done" ∧ task.column ≠ .str "done"
              then .str e.now else task.completedAt } := by
  have hlt : i < w.state.tasks.length := by
    rcases List.getElem?_eq_some.1 ht with ⟨h, _⟩
    exact h
  obtain ⟨_, h2, _⟩ := updateTask_found e { column := some c } hi ht
  unfold moveTask taskAt
  rw [h2, trackColumn_move_fields]
  constructor
  · rw [findIndex_set ht (by simp [merge]), hi]
  · rw [List.getElem?_set_self hlt]
    by_cases h : c = .str "done" ∧ task.column ≠ .str "done" <;> simp [merge, h]

theorem runMoves_append (id : JSVal) (ms ns : List (UpdateEnv × JSVal)) (w : World) :
    runMoves id (ms ++ ns) w = runMoves id ns (runMoves id ms w) := by
  simp [runMoves, List.foldl_append]

/-- Along a sequence of `moveTask` calls on an existing task, the task stays
at its index; a `completedAt` that is `null` stays `null` while no call asks
for `done`; a `completedAt` that is a timestamp stays a timestamp. -/
theorem runMoves_task {id : JSVal} {i : Nat} (ms : List (UpdateEnv × JSVal)) :
    ∀ (w : World) (task : Task),
      findIndex (fun t => t.id = id) w.state.tasks = some i →
      w.state.tasks[i]? = some task →
      ∃ t1, findIndex (fun t => t.id = id) (runMoves id ms w).state.tasks = some i
        ∧ taskAt (runMoves id ms w) i = some t1
        ∧ (task.completedAt = .null → (∀ m ∈ ms, m.2 ≠ .str "done") →
            t1.completedAt = .null)
        ∧ ((∃ s, task.completedAt = .str s) → ∃ s, t1.completedAt = .str s) := by
  induction ms with
  | nil =>
    intro w task hi ht
    exact ⟨task, hi, ht, fun h _ => h, fun h => h⟩
  | cons m ms ih =>
    intro w task hi ht
    obtain ⟨hi1, ht1⟩ := moveTask_task m.1 m.2 hi ht
    obtain ⟨t1, h1, h2, h3, h4⟩ := ih (moveTask m.1 id m.2 w) _ hi1 ht1
    refine ⟨t1, h1, h2, ?_, ?_⟩
    · intro hnull hall
      apply h3
      · have hm : m.2 ≠ .str "done" := hall m (List.mem_cons_self _ _)
        simp [hm, hnull]
      · intro x hx
        exact hall x (List.mem_cons_of_mem _ hx)
    · intro hs
      apply h4
      obtain ⟨s, hs⟩ := hs
      by_cases h : m.2 = .str "done" ∧ task.column ≠ .str "done"
      · exact ⟨m.1.now, by simp [h]⟩
      · exact ⟨s, by simp [h, hs]⟩

theorem trackColumn_actionLog_moved (e : UpdateEnv) (task : Task) (updates : Fields) (w : World)
    (s : String) (hc : updates.column = some (.str s)) (hs : s ≠ "")
    (hne : JSVal.str s ≠ task.column) :
    (trackColumn e task updates w).2.state.actionLog
      = ({ time := e.log.now,
           text := if s = "done" then "Completed: " ++ task.title.toStr
             else if s = "archived" then "Archived: " ++ task.title.toStr
             else "Moved \"" ++ task.title.toStr ++ "\" to " ++ s }
          :: w.state.actionLog).take 50 := by
  have htr : (JSVal.str s).truthy = true := by simp [JSVal.truthy, hs]
  unfold trackColumn
  simp only [readProp, hc, Option.getD_some, htr, true_and, ne_eq, hne, not_false_eq_true,
    if_true, JSVal.toStr]
  by_cases h1 : s = "done"
  · subst h1
    have h2 : task.column ≠ JSVal.str "done" := fun h => hne h.symm
    simp [h2, logAction_actionLog]
  · by_cases h2 : s = "archived"
    · subst h2
      simp [logAction_actionLog]
    · simp [h1, h2, logAction_actionLog]

theorem trackColumn_actionLog_same (e : UpdateEnv) (task : Task) (updates : Fields) (w : World)
    (h : (readProp updates.column).truthy = false ∨ readProp updates.column = task.column) :
    (trackColumn e task updates w).2 = w := by
  unfold trackColumn
  have : ¬ ((readProp updates.column).truthy = true ∧ readProp updates.column ≠ task.column) := by
    rintro ⟨h1, h2⟩
    rcases h with h | h
    · simp [h] at h1
    · exact h2 h
  simp [this]

/-- The `updates` object after the block "Track column changes": only
`completedAt` can differ from the object passed in, and it does exactly when
the requested column is `done` and the task is not in `done`. -/
theorem trackColumn_fields (e : UpdateEnv) (task : Task) (updates : Fields) (w : World) :
    (trackColumn e task updates w).1
      = if readProp updates.column = .str "done" ∧ task.column ≠ .str "done"
        then { updates with completedAt := some (.str e.now) } else updates := by
  unfold trackColumn
  by_cases h1 : readProp updates.column = .str "done" ∧ task.column ≠ .str "done"
  · obtain ⟨hc, h⟩ := h1
    have h2 : (JSVal.str "done").truthy = true := by decide
    have h3 : ¬ JSVal.str "done" = task.column := fun h4 => h h4.symm
    simp [hc, h, h2, h3]
  · simp only [h1, if_false]
    split_ifs <;> rfl

theorem take_append_take {α : Type} (n : Nat) (a b : List α) :
    (a ++ b.take n).take n = (a ++ b).take n := by
  rw [List.take_append_eq_append_take, List.take_append_eq_append_take, List.take_take]
  congr 2
  omega

theorem runLog_actionLog (es : List (LogEnv × String)) :
    ∀ w : World, w.state.actionLog.length ≤ 50 →
      (runLog es w).state.actionLog
        = ((es.map entryOf).reverse ++ w.state.actionLog).take 50 := by
  induction es with
  | nil =>
    intro w hw
    simp [runLog, List.take_of_length_le hw]
  | cons x es ih =>
    intro w _
    have hrun : runLog (x :: es) w = runLog es (logAction x.1 x.2 w) := rfl
    have hlen : (logAction x.1 x.2 w).state.actionLog.length ≤ 50 := by
      rw [logAction_actionLog, List.length_take]
      omega
    rw [hrun, ih _ hlen, logAction_actionLog, take_append_take]
    simp [entryOf]

theorem jsOr_str (s : String) (d : JSVal) (hs : s ≠ "") : jsOr (.str s) d = .str s := by
  simp [jsOr, JSVal.truthy, hs]

theorem createTask_tasks (e : CreateEnv) (data : Fields) (w : World) :
    (createTask e data w).2.state.tasks = w.state.tasks ++ [(createTask e data w).1] := by
  simp [createTask, logAction_tasks, saveState_state]

theorem deleteTask_tasks (e : DeleteEnv) (id : JSVal) (w : World) :
    (deleteTask e id w).state.tasks = w.state.tasks.filter (fun t => t.id ≠ id) := by
  unfold deleteTask
  simp only [saveState_state]
  split <;> simp [logAction_tasks]

theorem run_append_singleton (ops : List Op) (op : Op) (w : World) :
    run (ops ++ [op]) w = step (run ops w) op := by
  simp [run, List.foldl_append]

/-- Where a task of the state after one call comes from, as far as `id` and
`completedAt` go: it continues a task of the state before, or it has just
been stamped on entering `done`, or it is the record just created. -/
theorem step_origin (w : World) (op : Op) (hp : plainOp op = true) (t : Task)
    (ht : t ∈ (step w op).state.tasks) :
    (∃ old ∈ w.state.tasks, old.id = t.id ∧ old.completedAt = t.completedAt)
    ∨ (t.column = .str "done" ∧ ∃ s, t.completedAt = .str s)
    ∨ t.completedAt = .null := by
  have hupd : ∀ (e : UpdateEnv) (id : JSVal) (updates : Fields),
      updates.id = none → updates.completedAt = none →
      t ∈ (updateTask e id updates w).2.state.tasks →
      (∃ old ∈ w.state.tasks, old.id = t.id ∧ old.completedAt = t.completedAt)
      ∨ (t.column = .str "done" ∧ ∃ s, t.completedAt = .str s)
      ∨ t.completedAt = .null := by
    intro e id updates hid hc hmem
    cases hi : findIndex (fun t => t.id = id) w.state.tasks with
    | none =>
      have : updateTask e id updates w = (none, w) := by
        unfold updateTask
        rw [hi]
      rw [this] at hmem
      exact Or.inl ⟨t, hmem, rfl, rfl⟩
    | some i =>
      obtain ⟨task, htask, _⟩ := findIndex_some hi
      obtain ⟨_, h2, _⟩ := updateTask_found e updates hi htask
      rw [h2] at hmem
      rcases List.mem_or_eq_of_mem_set hmem with hold | hnew
      · exact Or.inl ⟨t, hold, rfl, rfl⟩
      · have htm : task ∈ w.state.tasks := List.getElem?_mem htask
        rw [trackColumn_fields] at hnew
        by_cases hd : readProp updates.column = .str "done" ∧ task.column ≠ .str "done"
        · rw [if_pos hd] at hnew
          have hcol : updates.column = some (.str "done") := by
            have h := hd.1
            unfold readProp at h
            cases hu : updates.column with
            | none => rw [hu] at h; simp at h
            | some c => rw [hu] at h; simp at h; rw [h]
          refine Or.inr (Or.inl ⟨?_, e.now, ?_⟩)
          · rw [hnew]; simp [merge, hcol]
          · rw [hnew]; simp [merge]
        · rw [if_neg hd] at hnew
          refine Or.inl ⟨task, htm, ?_, ?_⟩
          · rw [hnew]; simp [merge, hid]
          · rw [hnew]; simp [merge, hc]
  cases op with
  | create e data =>
    simp only [step, createTask_tasks, List.mem_append, List.mem_singleton] at ht
    rcases ht with hold | hnew
    · exact Or.inl ⟨t, hold, rfl, rfl⟩
    · right; right
      rw [hnew]
      rfl
  | update e id updates =>
    simp only [plainOp, Bool.and_eq_true, Option.isNone_iff_eq_none] at hp
    exact hupd e id updates hp.1 hp.2 ht
  | move e id c =>
    exact hupd e id { column := some c } rfl rfl ht
  | delete e id =>
    simp only [step, deleteTask_tasks] at ht
    exact Or.inl ⟨t, (List.mem_filter.1 ht).1, rfl, rfl⟩

/-- In a run of calls none of which carries `id` or `completedAt`, a task
with a `completedAt` other than `null` holds a timestamp there, and some
state of the run holds a task with its id in column `done`. -/
theorem run_completedAt_origin (w : World) (hw : w.state.tasks = []) (ops : List Op) :
    (∀ op ∈ ops, plainOp op = true) →
    ∀ t ∈ (run ops w).state.tasks, t.completedAt ≠ .null →
      (∃ s, t.completedAt = .str s)
      ∧ ∃ k, k ≤ ops.length ∧ ∃ u ∈ (run (ops.take k) w).state.tasks,
          u.id = t.id ∧ u.column = .str "done" := by
  induction ops using List.reverseRecOn with
  | nil =>
    intro _ t ht
    simp [run, hw] at ht
  | append_singleton ops op ih =>
    intro hall t ht hne
    have hall1 : ∀ o ∈ ops, plainOp o = true := fun o ho => hall o (List.mem_append_left _ ho)
    have hop : plainOp op = true := hall op (by simp)
    rw [run_append_singleton] at ht
    rcases step_origin (run ops w) op hop t ht with ⟨old, hold, hid, hc⟩ | ⟨hcol, s, hs⟩ | hnull
    · obtain ⟨⟨s, hs⟩, k, hk, u, hu, huid, hucol⟩ := ih hall1 old hold (by rw [hc]; exact hne)
      refine ⟨⟨s, by rw [← hc, hs]⟩, k, ?_, u, ?_, by rw [huid, hid], hucol⟩
      · rw [List.length_append]
        omega
      · rw [List.take_append_of_le_length hk]
        exact hu
    · refine ⟨⟨s, hs⟩, (ops ++ [op]).length, le_refl _, t, ?_, rfl, hcol⟩
      rw [List.take_length, run_append_singleton]
      exact ht
    · exact absurd hnull hne

/-- One call that passes a valid column, or none, keeps every column valid. -/
theorem step_columns_valid (w : World) (op : Op) (hv : opColumnValid op = true)
    (hw : ∀ t ∈ w.state.tasks, validColumn t.column = true) :
    ∀ t ∈ (step w op).state.tasks, validColumn t.column = true := by
  have hupd : ∀ (e : UpdateEnv) (id : JSVal) (updates : Fields),
      (∀ c, updates.column = some c → validColumn c = true) →
      ∀ t ∈ (updateTask e id updates w).2.state.tasks, validColumn t.column = true := by
    intro e id updates hcol t hmem
    cases hi : findIndex (fun t => t.id = id) w.state.tasks with
    | none =>
      have : updateTask e id updates w = (none, w) := by
        unfold updateTask
        rw [hi]
      rw [this] at hmem
      exact hw t hmem
    | some i =>
      obtain ⟨task, htask, _⟩ := findIndex_some hi
      obtain ⟨_, h2, _⟩ := updateTask_found e updates hi htask
      rw [h2] at hmem
      rcases List.mem_or_eq_of_mem_set hmem with hold | hnew
      · exact hw t hold
      · have htm : task ∈ w.state.tasks := List.getElem?_mem htask
        have hc : t.column = updates.column.getD task.column := by
          rw [hnew, trackColumn_fields]
          split_ifs <;> simp [merge]
        rw [hc]
        cases hu : updates.column with
        | none => exact hw task htm
        | some c => exact hcol c hu
  intro t ht
  cases op with
  | create e data =>
    simp only [step, createTask_tasks, List.mem_append, List.mem_singleton] at ht
    rcases ht with hold | hnew
    · exact hw t hold
    · have hc : t.column = jsOr (readProp data.column) (.str "todo") := by
        rw [hnew]
        rfl
      rw [hc]
      simp only [opColumnValid, Bool.or_eq_true, Bool.not_eq_true'] at hv
      unfold jsOr
      by_cases htr : (readProp data.column).truthy = true
      · rw [if_pos htr]
        rcases hv with hf | hvalid
        · rw [hf] at htr
          exact absurd htr (by decide)
        · exact hvalid
      · rw [if_neg htr]
        decide
  | update e id updates =>
    apply hupd e id updates _ t ht
    intro c hc
    simp only [opColumnValid, hc] at hv
    exact hv
  | move e id c =>
    apply hupd e id { column := some c } _ t ht
    intro c1 hc1
    simp only [opColumnValid] at hv
    simp only [Option.some.injEq] at hc1
    rw [← hc1]
    exact hv
  | delete e id =>
    simp only [step, deleteTask_tasks] at ht
    exact hw t (List.mem_filter.1 ht).1

theorem run_columns_valid (ops : List Op) :
    ∀ w : World, (∀ t ∈ w.state.tasks, validColumn t.column = true) →
      (∀ op ∈ ops, opColumnValid op = true) →
      ∀ t ∈ (run ops w).state.tasks, validColumn t.column = true := by
  induction ops with
  | nil =>
    intro w hw _
    exact hw
  | cons op ops ih =>
    intro w hw hall
    exact ih (step w op)
      (step_columns_valid w op (hall op (List.mem_cons_self _ _)) hw)
      (fun o ho => hall o (List.mem_cons_of_mem _ ho))

theorem lookupKey_encodeField_ne (k k1 : String) (v : JSVal) (rest : List (String × Json))
    (h : k1 ≠ k) : lookupKey k (encodeField k1 v ++ rest) = lookupKey k rest := by
  cases v <;> simp [encodeField, lookupKey, h]

theorem lookupKey_encodeField_same (k : String) (v : JSVal) (rest : List (String × Json))
    (h : lookupKey k rest = none) :
    Json.toJSVal (lookupKey k (encodeField k v ++ rest)) = v := by
  cases v <;> simp [encodeField, lookupKey, h, Json.toJSVal]

/-- Reading a stringified task back gives the task. -/
theorem decodeTask_toJson (t : Task) : decodeTask (Task.toJson t) = t := by
  have hnil : ∀ k, lookupKey k ([] : List (String × Json)) = none := fun _ => rfl
  cases t
  simp only [decodeTask, Task.toJson, Json.get]
  congr 1
  all_goals
    repeat (first
      | rw [lookupKey_encodeField_ne _ _ _ _ (by decide)]
      | apply lookupKey_encodeField_same
      | exact hnil _)

theorem decodeLogEntry_toJson (x : LogEntry) : decodeLogEntry (LogEntry.toJson x) = x := by
  cases x
  simp [decodeLogEntry, LogEntry.toJson, Json.get, lookupKey, Json.toString]

theorem map_decode_encode {α : Type} (enc : α → Json) (dec : Json → α)
    (h : ∀ a, dec (enc a) = a) (l : List α) : (l.map enc).map dec = l := by
  induction l with
  | nil => rfl
  | cons a l ih => simp [h a, ih]

theorem column_counts_sum (l : List Task) :
    (l.filter (fun t => t.column = .str "todo")).length
      + ((l.filter (fun t => t.column = .str "progress")).length
      + ((l.filter (fun t => t.column = .str "done")).length
      + ((l.filter (fun t => t.column = .str "archived")).length + 0)))
      = (l.filter (fun t => validColumn t.column)).length := by
  induction l with
  | nil => rfl
  | cons a l ih =>
    have h1 : JSVal.str "todo" ≠ JSVal.str "progress" := by decide
    have h2 : JSVal.str "todo" ≠ JSVal.str "done" := by decide
    have h3 : JSVal.str "todo" ≠ JSVal.str "archived" := by decide
    have h4 : JSVal.str "progress" ≠ JSVal.str "done" := by decide
    have h5 : JSVal.str "progress" ≠ JSVal.str "archived" := by decide
    have h6 : JSVal.str "done" ≠ JSVal.str "archived" := by decide
    by_cases c1 : a.column = .str "todo"
    · simp [List.filter_cons, validColumn, c1, h1, h2, h3] at ih ⊢
      omega
    · by_cases c2 : a.column = .str "progress"
      · simp [List.filter_cons, validColumn, c2, h1.symm, h4, h5] at ih ⊢
        omega
      · by_cases c3 : a.column = .str "done"
        · simp [List.filter_cons, validColumn, c3, h2.symm, h4.symm, h6] at ih ⊢
          omega
        · by_cases c4 : a.column = .str "archived"
          · simp [List.filter_cons, validColumn, c4, h3.symm, h5.symm, h6.symm] at ih ⊢
            omega
          · simp [List.filter_cons, validColumn, c1, c2, c3, c4] at ih ⊢
            omega

theorem saveState_state_congr (b1 b2 : Bool) {w1 w2 : World} (h : w1.state = w2.state) :
    (saveState b1 w1).state = (saveState b2 w2).state := by
  rw [saveState_state, saveState_state, h]

theorem logAction_state_congr (e1 e2 : LogEnv) (hn : e1.now = e2.now) (text : String)
    {w1 w2 : World} (h : w1.state = w2.state) :
    (logAction e1 text w1).state = (logAction e2 text w2).state := by
  simp [logAction, saveState_state, hn, h]

theorem logAction_store (e : LogEnv) (text : String) (w : World) (h : e.writeOk = true) :
    (logAction e text w).store = some (logAction e text w).state := by
  simp [logAction, saveState, h]

theorem saveState_store (w : World) : (saveState true w).store = some (saveState true w).state := by
  simp [saveState]

theorem trackColumn_congr (e1 e2 : UpdateEnv) (hn : e1.now = e2.now)
    (hl : e1.log.now = e2.log.now) (task : Task) (updates : Fields) (w : World) :
    (trackColumn e1 task updates w).1 = (trackColumn e2 task updates w).1
    ∧ (trackColumn e1 task updates w).2.state = (trackColumn e2 task updates w).2.state := by
  unfold trackColumn
  simp only
  split_ifs
  · exact ⟨by simp [hn], logAction_state_congr _ _ hl _ rfl⟩
  · exact ⟨rfl, logAction_state_congr _ _ hl _ rfl⟩
  · exact ⟨rfl, logAction_state_congr _ _ hl _ rfl⟩
  · exact ⟨rfl, rfl⟩

/-- Two `updateTask` calls that get the same clock readings give the same
result and the same in-memory state, whatever their writes do. -/
theorem updateTask_congr (e1 e2 : UpdateEnv) (hn : e1.now = e2.now)
    (hl : e1.log.now = e2.log.now) (id : JSVal) (updates : Fields) (w : World) :
    (updateTask e1 id updates w).1 = (updateTask e2 id updates w).1
    ∧ (updateTask e1 id updates w).2.state = (updateTask e2 id updates w).2.state := by
  have h1 := fun task => (trackColumn_congr e1 e2 hn hl task updates w).1
  have h2 := fun task => (trackColumn_congr e1 e2 hn hl task updates w).2
  cases hi : findIndex (fun t => t.id = id) w.state.tasks with
  | none => simp only [updateTask, hi, and_self]
  | some i =>
    cases ht : w.state.tasks[i]? with
    | none => simp only [updateTask, hi, ht, and_self]
    | some task =>
      simp only [updateTask, hi, ht, saveState_state, h1 task, h2 task, and_self]

theorem deleteTask_congr (e1 e2 : DeleteEnv) (hl : e1.log.now = e2.log.now) (id : JSVal)
    (w : World) : (deleteTask e1 id w).state = (deleteTask e2 id w).state := by
  unfold deleteTask
  simp only [saveState_state]
  cases hf : w.state.tasks.find? (fun t => t.id = id) with
  | none => rfl
  | some task => simp only [logAction_state_congr e1.log e2.log hl _ rfl]

theorem createTask_congr (e1 e2 : CreateEnv) (hd : e1.dateNow = e2.dateNow)
    (hr : e1.random = e2.random) (hn : e1.now = e2.now) (hl : e1.log.now = e2.log.now)
    (data : Fields) (w : World) :
    (createTask e1 data w).1 = (createTask e2 data w).1
    ∧ (createTask e1 data w).2.state = (createTask e2 data w).2.state := by
  unfold createTask
  simp only [hd, hr, hn, true_and]
  exact logAction_state_congr _ _ hl _ (saveState_state_congr _ _ rfl)

theorem saveFeaturesState_state (ok : Bool) (f : FeaturesWorld) :
    (saveFeaturesState ok f).state = f.state := by
  unfold saveFeaturesState; split <;> rfl

theorem checkLoop_spec (e : RecurEnv) (today : String) (l : List RecurringTask) :
    ∀ (k : Nat) (w : World),
      (checkLoop e today k l w).1
          = l.map (fun rt =>
              if shouldRecurringTaskRun rt e.now = true ∧ rt.lastRun ≠ .str today
              then { rt with lastRun := .str today } else rt)
      ∧ (e.dashboard = true →
          (checkLoop e today k l w).2.state.tasks.map (fun t => (t.title, t.column))
            = w.state.tasks.map (fun t => (t.title, t.column))
              ++ (l.filter (fun rt =>
                    shouldRecurringTaskRun rt e.now = true ∧ rt.lastRun ≠ .str today)).map
                  (fun rt => (rt.title, JSVal.str "todo")))
      ∧ (e.dashboard = false → (checkLoop e today k l w).2 = w) := by
  induction l with
  | nil =>
    intro k w
    simp [checkLoop]
  | cons rt rest ih =>
    intro k w
    by_cases hdue : shouldRecurringTaskRun rt e.now = true ∧ rt.lastRun ≠ .str today
    · simp only [checkLoop, hdue, and_self, if_true, List.map_cons, List.filter_cons,
        decide_True, not_false_eq_true, ne_eq]
      refine ⟨?_, ?_, ?_⟩
      · rw [(ih _ _).1]
      · intro hd
        rw [(ih _ _).2.1 hd]
        simp only [hd, if_true, createTask_tasks, List.map_append, List.map_cons, List.map_nil,
          List.append_assoc, List.singleton_append]
        rfl
      · intro hd
        rw [(ih _ _).2.2 hd]
        simp [hd]
    · simp only [checkLoop, hdue, if_false, List.map_cons, List.filter_cons, decide_False]
      refine ⟨?_, ?_, ?_⟩
      · rw [(ih _ _).1]
      · intro hd
        rw [(ih _ _).2.1 hd]
        simp
      · intro hd
        exact (ih _ _).2.2 hd

/-- For an id that has a record, or that no object inherits from
`Object.prototype`, `updateProjectProgress` leaves under the id a record with
the progress clamped to `[0, 100]`, status `active` when the record is new and
the old status otherwise, and it leaves every other record as it was. -/
theorem updateProjectProgress_record (ok : Bool) (projectId : String) (progress : Int)
    (f : FeaturesWorld)
    (h : (f.state.projectProgress projectId).isSome = true ∨ projectId ∉ objectPrototypeNames) :
    (∃ r, (updateProjectProgress ok projectId progress f).state.projectProgress projectId
          = some r
        ∧ r.progress = min 100 (max 0 progress)
        ∧ 0 ≤ r.progress ∧ r.progress ≤ 100
        ∧ (0 ≤ progress → progress ≤ 100 → r.progress = progress)
        ∧ (f.state.projectProgress projectId = none → r.status = .str "active")
        ∧ (∀ old, f.state.projectProgress projectId = some old → r.status = old.status))
    ∧ (∀ k, k ≠ projectId →
        (updateProjectProgress ok projectId progress f).state.projectProgress k
          = f.state.projectProgress k) := by
  cases h0 : f.state.projectProgress projectId with
  | none =>
    have hn : projectId ∉ objectPrototypeNames := by
      rcases h with h | h
      · simp [h0] at h
      · exact h
    have hr : readsTruthy f.state.projectProgress projectId = false := by
      simp [readsTruthy, h0, hn]
    constructor
    · refine ⟨{ progress := min 100 (max 0 progress), status := .str "active" }, ?_, rfl,
        by simp, by simp, ?_, fun _ => rfl, ?_⟩
      · simp [updateProjectProgress, saveFeaturesState_state, hr]
      · intro h1 h2
        simp [h1, h2]
      · intro old ho
        simp at ho
    · intro k hk
      simp [updateProjectProgress, saveFeaturesState_state, hr, hk]
  | some old =>
    have hr : readsTruthy f.state.projectProgress projectId = true := by
      simp [readsTruthy, h0]
    constructor
    · refine ⟨{ old with progress := min 100 (max 0 progress) }, ?_, rfl,
        by simp, by simp, ?_, ?_, ?_⟩
      · simp [updateProjectProgress, saveFeaturesState_state, hr, h0]
      · intro h1 h2
        simp [h1, h2]
      · intro ho
        simp at ho
      · intro o ho
        simp at ho
        rw [← ho]
    · intro k hk
      simp [updateProjectProgress, saveFeaturesState_state, hr, h0, hk]

/-! ## C1 -/

/-- C1 (as stated, refuted): in the sample world the task is moved
`todo -> done` at `t1`, `done -> progress`, and `progress -> done` at `t2`;
`completedAt` is `t1` after the first move and `t2`, not `t1`, after the
last. -/
theorem completedAt_restamped_on_reentry :
    (taskAt (runMoves sampleId [(envAt "t1", .str "done")] sampleWorld) 0).map (·.completedAt)
      = some (.str "t1")
    ∧ (taskAt (runMoves sampleId
        [(envAt "t1", .str "done"), (envAt "t1b", .str "progress"), (envAt "t2", .str "done")]
        sampleWorld) 0).map (·.completedAt) = some (.str "t2")
    ∧ (taskAt (runMoves sampleId
        [(envAt "t1", .str "done"), (envAt "t1b", .str "progress"), (envAt "t2", .str "done")]
        sampleWorld) 0).map (·.completedAt) ≠ some (.str "t1") := by
  decide

/-- C1 (amended): for a task found under `id` at index `i` and any sequence
`ms` of `moveTask` calls on it: (1) if `completedAt` starts as `null` and no
call asks for `done`, it is still `null`; (2) if some call asks for `done`
while the task is in another column, `completedAt` is a timestamp from then
on; (3) one more call sets `completedAt` to that call's time when it asks for
`done` and the task is not in `done` (so a re-entry stamps it again), and
leaves it as it was in every other case. -/
theorem completedAt_across_moves (w : World) (id : JSVal) (i : Nat) (task : Task)
    (hi : findIndex (fun t => t.id = id) w.state.tasks = some i)
    (ht : w.state.tasks[i]? = some task)
    (ms : List (UpdateEnv × JSVal)) :
    (task.completedAt = .null → (∀ m ∈ ms, m.2 ≠ .str "done") →
        (taskAt (runMoves id ms w) i).map (·.completedAt) = some .null)
    ∧ (∀ ms1 m ms2 t1, ms = ms1 ++ m :: ms2 → m.2 = .str "done" →
        taskAt (runMoves id ms1 w) i = some t1 → t1.column ≠ .str "done" →
        ∃ s, (taskAt (runMoves id ms w) i).map (·.completedAt) = some (.str s))
    ∧ (∀ m, ∃ t1, taskAt (runMoves id ms w) i = some t1
        ∧ (taskAt (runMoves id (ms ++ [m]) w) i).map (·.completedAt)
            = some (if m.2 = .str "done" ∧ t1.column ≠ .str "done"
                then .str m.1.now else t1.completedAt)) := by
  refine ⟨?_, ?_, ?_⟩
  · intro hnull hall
    obtain ⟨t1, _, h2, h3, _⟩ := runMoves_task ms w task hi ht
    rw [h2, Option.map_some', h3 hnull hall]
  · intro ms1 m ms2 t1 hms hm ht1 hcol
    obtain ⟨u, hu1, hu2, _, _⟩ := runMoves_task ms1 w task hi ht
    have hu3 : (runMoves id ms1 w).state.tasks[i]? = some t1 := ht1
    obtain ⟨hv1, hv2⟩ := moveTask_task m.1 m.2 hu1 hu3
    obtain ⟨t2, _, h2, _, h4⟩ :=
      runMoves_task ms2 (moveTask m.1 id m.2 (runMoves id ms1 w)) _ hv1 hv2
    obtain ⟨s, hs⟩ := h4 ⟨m.1.now, by simp [hm, hcol]⟩
    refine ⟨s, ?_⟩
    have hrun : runMoves id ms w
        = runMoves id ms2 (moveTask m.1 id m.2 (runMoves id ms1 w)) := by
      rw [hms, runMoves_append]
      rfl
    rw [hrun, h2, Option.map_some', hs]
  · intro m
    obtain ⟨t1, h1, h2, _, _⟩ := runMoves_task ms w task hi ht
    refine ⟨t1, h2, ?_⟩
    obtain ⟨_, hv2⟩ := moveTask_task m.1 m.2 h1 h2
    have hrun : runMoves id (ms ++ [m]) w = moveTask m.1 id m.2 (runMoves id ms w) := by
      rw [runMoves_append]
      rfl
    rw [hrun, hv2]
    rfl

/-- Witness for `completedAt_across_moves`: the sample task, moved to
`progress` and then to `done` at `t2`. -/
theorem completedAt_across_moves_witness :
    findIndex (fun t => t.id = sampleId) sampleWorld.state.tasks = some 0
    ∧ sampleWorld.state.tasks[0]? = some sampleTask
    ∧ ∃ t1, taskAt (runMoves sampleId [(envAt "t1", .str "progress")] sampleWorld) 0 = some t1
        ∧ (taskAt (runMoves sampleId ([(envAt "t1", .str "progress")] ++ [(envAt "t2", .str "done")])
            sampleWorld) 0).map (·.completedAt)
            = some (if (envAt "t2", JSVal.str "done").2 = .str "done" ∧ t1.column ≠ .str "done"
                then .str (envAt "t2", JSVal.str "done").1.now else t1.completedAt) :=
  ⟨by decide, by decide,
    (completedAt_across_moves sampleWorld sampleId 0 sampleTask (by decide) (by decide)
      [(envAt "t1", .str "progress")]).2.2 (envAt "t2", .str "done")⟩

/-! ## C2 -/

/-- C2: for a task found under `id` at index `i`, after `moveTask(id, c)` its
`completedAt` is the call time when `c` is `done` and the task was not in
`done`, and its previous value otherwise; so a move to `archived` keeps it,
and a move from `done` to `todo` or `progress` keeps it. -/
theorem moveTask_completedAt (e : UpdateEnv) (w : World) (id c : JSVal) (i : Nat) (task : Task)
    (hi : findIndex (fun t => t.id = id) w.state.tasks = some i)
    (ht : w.state.tasks[i]? = some task) :
    (taskAt (moveTask e id c w) i).map (·.completedAt)
        = some (if c = .str "done" ∧ task.column ≠ .str "done"
            then .str e.now else task.completedAt)
    ∧ (c = .str "archived" →
        (taskAt (moveTask e id c w) i).map (·.completedAt) = some task.completedAt)
    ∧ (task.column = .str "done" → c = .str "todo" ∨ c = .str "progress" →
        (taskAt (moveTask e id c w) i).map (·.completedAt) = some task.completedAt) := by
  obtain ⟨_, h⟩ := moveTask_task e c hi ht
  rw [h]
  refine ⟨rfl, ?_, ?_⟩
  · intro hc
    subst hc
    simp
  · intro hcol _
    simp [hcol]

/-- Witness for `moveTask_completedAt`: the sample task moved to `done`. -/
theorem moveTask_completedAt_witness :
    findIndex (fun t => t.id = sampleId) sampleWorld.state.tasks = some 0
    ∧ sampleWorld.state.tasks[0]? = some sampleTask
    ∧ (taskAt (moveTask (envAt "t1") sampleId (.str "done") sampleWorld) 0).map (·.completedAt)
        = some (.str "t1") :=
  ⟨by decide, by decide,
    (moveTask_completedAt (envAt "t1") sampleWorld sampleId (.str "done") 0 sampleTask
      (by decide) (by decide)).1⟩

/-! ## C3 -/

/-- C3 (as stated, refuted): on the sample task (column `todo`) an update that
asks for the empty column name, which differs from `todo`, stores the empty
column and leaves the action log as it was; no `Moved` entry is added. -/
theorem empty_column_change_not_logged :
    JSVal.str "" ≠ sampleTask.column
    ∧ (taskAt (updateTask (envAt "t1") sampleId { column := some (.str "") } sampleWorld).2 0).map
        (·.column) = some (.str "")
    ∧ (updateTask (envAt "t1") sampleId { column := some (.str "") } sampleWorld).2.state.actionLog
        = sampleWorld.state.actionLog
    ∧ (updateTask (envAt "t1") sampleId { column := some (.str "") } sampleWorld).2.state.actionLog
        ≠ ({ time := "t1", text := "Moved \"Write report\" to " }
            :: sampleWorld.state.actionLog).take 50 := by
  decide

/-- C3 (amended): for a task found under `id` at index `i`, an update whose
requested column is a non-empty string `s` different from the current column
puts exactly one new entry at the head of the action log (kept to 50
entries), with text `Completed: <title>` for `done`, `Archived: <title>` for
`archived` and `Moved "<title>" to <s>` otherwise; an update whose requested
column is the current column, is falsy (empty, `null`, `undefined`) or is not
there leaves the action log as it was. -/
theorem updateTask_actionLog (e : UpdateEnv) (w : World) (id : JSVal) (updates : Fields)
    (i : Nat) (task : Task)
    (hi : findIndex (fun t => t.id = id) w.state.tasks = some i)
    (ht : w.state.tasks[i]? = some task) :
    (∀ s : String, updates.column = some (.str s) → s ≠ "" → JSVal.str s ≠ task.column →
        (updateTask e id updates w).2.state.actionLog
          = ({ time := e.log.now,
               text := if s = "done" then "Completed: " ++ task.title.toStr
                 else if s = "archived" then "Archived: " ++ task.title.toStr
                 else "Moved \"" ++ task.title.toStr ++ "\" to " ++ s }
              :: w.state.actionLog).take 50)
    ∧ ((readProp updates.column).truthy = false ∨ readProp updates.column = task.column →
        (updateTask e id updates w).2.state.actionLog = w.state.actionLog) := by
  obtain ⟨_, _, h3⟩ := updateTask_found e updates hi ht
  constructor
  · intro s hc hs hne
    rw [h3, trackColumn_actionLog_moved e task updates w s hc hs hne]
  · intro h
    rw [h3, trackColumn_actionLog_same e task updates w h]

/-- Witness for `updateTask_actionLog`: the sample task moved to `progress`. -/
theorem updateTask_actionLog_witness :
    findIndex (fun t => t.id = sampleId) sampleWorld.state.tasks = some 0
    ∧ sampleWorld.state.tasks[0]? = some sampleTask
    ∧ (updateTask (envAt "t1") sampleId { column := some (.str "progress") }
        sampleWorld).2.state.actionLog
        = [{ time := "t1", text := "Moved \"Write report\" to progress" },
           { time := "2023-11-14T22:13:20.001Z", text := "Created task: Write report" }] :=
  ⟨by decide, by decide,
    ((updateTask_actionLog (envAt "t1") sampleWorld sampleId { column := some (.str "progress") }
      0 sampleTask (by decide) (by decide)).1 "progress" rfl (by decide) (by decide)).trans
      (by decide)⟩

/-! ## C4 -/

/-- C4: when no task of the collection has the id, `updateTask` returns `null`
and the world (task collection, action log, store) is the one it was given,
whatever `updates` holds. -/
theorem updateTask_unknown_id (e : UpdateEnv) (id : JSVal) (updates : Fields) (w : World)
    (h : ∀ t ∈ w.state.tasks, t.id ≠ id) :
    updateTask e id updates w = (none, w) := by
  have hnone : findIndex (fun t => t.id = id) w.state.tasks = none := by
    rw [findIndex_none]
    intro t ht
    simpa using h t ht
  unfold updateTask
  rw [hnone]

/-- Witness for `updateTask_unknown_id`: a column change asked for an id that
the sample world does not hold. -/
theorem updateTask_unknown_id_witness :
    (∀ t ∈ sampleWorld.state.tasks, t.id ≠ JSVal.str "task_0_none")
    ∧ updateTask (envAt "t1") (.str "task_0_none") { column := some (.str "done") } sampleWorld
        = (none, sampleWorld) :=
  ⟨by decide,
    updateTask_unknown_id (envAt "t1") (.str "task_0_none") { column := some (.str "done") }
      sampleWorld (by decide)⟩

/-! ## C5 -/

/-- C5: `deleteTask` leaves the collection filtered to the tasks whose id is
not `id` (the others in their order); when some task has the id, the action
log gets the head entry `Deleted: <title>` for the first such task (the log
kept to 50 entries); when none has, the collection and the action log are the
ones before the call. -/
theorem deleteTask_collection_and_log (e : DeleteEnv) (id : JSVal) (w : World) :
    (deleteTask e id w).state.tasks = w.state.tasks.filter (fun t => t.id ≠ id)
    ∧ ((∃ t ∈ w.state.tasks, t.id = id) →
        ∃ task, w.state.tasks.find? (fun t => t.id = id) = some task
          ∧ (deleteTask e id w).state.actionLog
              = ({ time := e.log.now, text := "Deleted: " ++ task.title.toStr }
                  :: w.state.actionLog).take 50)
    ∧ ((∀ t ∈ w.state.tasks, t.id ≠ id) →
        (deleteTask e id w).state.tasks = w.state.tasks
          ∧ (deleteTask e id w).state.actionLog = w.state.actionLog) := by
  refine ⟨?_, ?_, ?_⟩
  · unfold deleteTask
    simp only [saveState_state]
    split <;> simp [logAction_tasks]
  · rintro ⟨t, htm, hid⟩
    cases hf : w.state.tasks.find? (fun t => t.id = id) with
    | none =>
      rw [List.find?_eq_none] at hf
      have := hf t htm
      simp [hid] at this
    | some task =>
      refine ⟨task, rfl, ?_⟩
      unfold deleteTask
      simp only [saveState_state, hf, logAction_actionLog]
  · intro hall
    have hf : w.state.tasks.find? (fun t => t.id = id) = none := by
      rw [List.find?_eq_none]
      intro t ht
      simpa using hall t ht
    unfold deleteTask
    simp only [saveState_state, hf]
    refine ⟨?_, trivial⟩
    rw [List.filter_eq_self]
    intro t ht
    simpa using hall t ht

/-- Witness for `deleteTask_collection_and_log`: deleting an id the sample
world does not hold. -/
theorem deleteTask_collection_and_log_witness :
    (∀ t ∈ sampleWorld.state.tasks, t.id ≠ JSVal.str "task_0_none")
    ∧ (deleteTask { log := { now := "t1", writeOk := true }, writeOk := true }
        (.str "task_0_none") sampleWorld).state.tasks = sampleWorld.state.tasks
    ∧ (deleteTask { log := { now := "t1", writeOk := true }, writeOk := true }
        (.str "task_0_none") sampleWorld).state.actionLog = sampleWorld.state.actionLog :=
  ⟨by decide,
    (deleteTask_collection_and_log { log := { now := "t1", writeOk := true }, writeOk := true }
      (.str "task_0_none") sampleWorld).2.2 (by decide)⟩

/-! ## C6 -/

/-- C6: `createTask(data)` returns a record with `title = data.title`,
`completedAt = null`, `createdAt` the call time, and `column`, `priority`,
`dueDate` equal to `data.column || 'todo'`, `data.priority || 'medium'`,
`data.dueDate || null` (the field's value when it is a non-empty string, the
default when it is not there); the new collection is the old one with the
record appended, and the action log starts with `Created task: <title>`.
On an empty board, creating "Write report" in `todo` gives the counts
todo 1, progress 0, done 0. -/
theorem createTask_record (e : CreateEnv) (data : Fields) (w : World) :
    (createTask e data w).1.title = readProp data.title
    ∧ (createTask e data w).1.completedAt = .null
    ∧ (createTask e data w).1.createdAt = .str e.now
    ∧ (createTask e data w).1.column = jsOr (readProp data.column) (.str "todo")
    ∧ (createTask e data w).1.priority = jsOr (readProp data.priority) (.str "medium")
    ∧ (createTask e data w).1.dueDate = jsOr (readProp data.dueDate) .null
    ∧ (data.column = none → (createTask e data w).1.column = .str "todo")
    ∧ (∀ s, s ≠ "" → data.column = some (.str s) → (createTask e data w).1.column = .str s)
    ∧ (data.priority = none → (createTask e data w).1.priority = .str "medium")
    ∧ (∀ s, s ≠ "" → data.priority = some (.str s) →
        (createTask e data w).1.priority = .str s)
    ∧ (data.dueDate = none → (createTask e data w).1.dueDate = .null)
    ∧ (∀ s, s ≠ "" → data.dueDate = some (.str s) → (createTask e data w).1.dueDate = .str s)
    ∧ (createTask e data w).2.state.tasks = w.state.tasks ++ [(createTask e data w).1]
    ∧ (createTask e data w).2.state.actionLog
        = { time := e.log.now,
            text := "Created task: " ++ (createTask e data w).1.title.toStr }
          :: w.state.actionLog.take 49
    ∧ (∀ ds, renderStats (createTask e
          { title := some (.str "Write report"), column := some (.str "todo") }
          (emptyWorld ds)).2.state = (1, 0, 0)) := by
  refine ⟨rfl, rfl, rfl, rfl, rfl, rfl, ?_, ?_, ?_, ?_, ?_, ?_, ?_, ?_, ?_⟩
  · intro h
    simp [createTask, h, readProp, jsOr, JSVal.truthy]
  · intro s hs h
    simp [createTask, h, readProp, jsOr_str s _ hs]
  · intro h
    simp [createTask, h, readProp, jsOr, JSVal.truthy]
  · intro s hs h
    simp [createTask, h, readProp, jsOr_str s _ hs]
  · intro h
    simp [createTask, h, readProp, jsOr, JSVal.truthy]
  · intro s hs h
    simp [createTask, h, readProp, jsOr_str s _ hs]
  · simp [createTask, logAction_tasks, saveState_state]
  · simp [createTask, logAction_actionLog, saveState_state]
  · intro ds
    have ht : (createTask e { title := some (.str "Write report"), column := some (.str "todo") }
        (emptyWorld ds)).2.state.tasks
        = [(createTask e { title := some (.str "Write report"), column := some (.str "todo") }
            (emptyWorld ds)).1] := by
      simp [createTask, logAction_tasks, saveState_state, emptyWorld]
    have hc : (createTask e { title := some (.str "Write report"), column := some (.str "todo") }
        (emptyWorld ds)).1.column = .str "todo" := rfl
    have h1 : decide (JSVal.str "todo" = JSVal.str "progress") = false := by decide
    have h2 : decide (JSVal.str "todo" = JSVal.str "done") = false := by decide
    simp only [renderStats, ht, List.filter, hc, h1, h2, decide_True, List.length_cons,
      List.length_nil]

/-- Witness for `createTask_record`: scenario A, where the priority and the
due date are not given. -/
theorem createTask_record_witness :
    (createTask sampleCreateEnv
        { title := some (.str "Write report"), column := some (.str "todo") }
        (emptyWorld [])).1 = sampleTask
    ∧ (createTask sampleCreateEnv
        { title := some (.str "Write report"), column := some (.str "todo") }
        (emptyWorld [])).1.priority = .str "medium" :=
  ⟨by decide,
    (createTask_record sampleCreateEnv
      { title := some (.str "Write report"), column := some (.str "todo") }
      (emptyWorld [])).2.2.2.2.2.2.2.2.1 rfl⟩

/-! ## C7 -/

/-- C7: after `logAction(text)` the action log is the new entry followed by
the first 49 entries of the previous log, so its length is
`min (previous length + 1) 50`; starting from an empty log, after any
sequence of calls the log holds the entries of the last 50 calls, newest
first, and never more than 50; after 51 calls it holds the entries of calls
2 to 51, the first call's entry having been dropped. -/
theorem logAction_keeps_last_50 (e : LogEnv) (text : String) (w : World) :
    (logAction e text w).state.actionLog
        = { time := e.now, text := text } :: w.state.actionLog.take 49
    ∧ (logAction e text w).state.actionLog.length = min (w.state.actionLog.length + 1) 50
    ∧ (∀ es : List (LogEnv × String), w.state.actionLog = [] →
        (runLog es w).state.actionLog = ((es.map entryOf).reverse).take 50
        ∧ (runLog es w).state.actionLog.length ≤ 50
        ∧ (es.length = 51 →
            (runLog es w).state.actionLog = ((es.drop 1).map entryOf).reverse)) := by
  refine ⟨?_, ?_, ?_⟩
  · rw [logAction_actionLog]
    rfl
  · rw [logAction_actionLog, List.length_take, List.length_cons]
    omega
  · intro es hw
    have h := runLog_actionLog es w (by simp [hw])
    rw [hw, List.append_nil] at h
    refine ⟨h, ?_, ?_⟩
    · rw [h, List.length_take]
      omega
    · intro hlen
      rw [h, List.take_reverse, List.length_map, hlen, List.map_drop]

/-- Witness for `logAction_keeps_last_50`: two calls on the empty board. -/
theorem logAction_keeps_last_50_witness :
    (emptyWorld []).state.actionLog = []
    ∧ (runLog [({ now := "t1", writeOk := true }, "a"), ({ now := "t2", writeOk := true }, "b")]
        (emptyWorld [])).state.actionLog
        = [{ time := "t2", text := "b" }, { time := "t1", text := "a" }] :=
  ⟨rfl,
    ((logAction_keeps_last_50 { now := "t0", writeOk := true } "x" (emptyWorld [])).2.2
      [({ now := "t1", writeOk := true }, "a"), ({ now := "t2", writeOk := true }, "b")]
      rfl).1.trans (by decide)⟩

/-! ## C8 -/

/-- C8: for a task found under `id` at index `i`, `updateTask` returns a
record `r` and stores it at index `i`; the collection keeps its length and
every other index keeps its task; each field of `r` is the value carried by
`updates` when the field is there and the old value otherwise, except that
`completedAt` is the call time when the requested column is `done` and the
task was not in `done`. -/
theorem updateTask_merge (e : UpdateEnv) (w : World) (id : JSVal) (updates : Fields)
    (i : Nat) (task : Task)
    (hi : findIndex (fun t => t.id = id) w.state.tasks = some i)
    (ht : w.state.tasks[i]? = some task) :
    ∃ r, (updateTask e id updates w).1 = some r
      ∧ taskAt (updateTask e id updates w).2 i = some r
      ∧ (updateTask e id updates w).2.state.tasks.length = w.state.tasks.length
      ∧ (∀ j, j ≠ i → taskAt (updateTask e id updates w).2 j = taskAt w j)
      ∧ r.id = updates.id.getD task.id
      ∧ r.title = updates.title.getD task.title
      ∧ r.description = updates.description.getD task.description
      ∧ r.project = updates.project.getD task.project
      ∧ r.priority = updates.priority.getD task.priority
      ∧ r.dueDate = updates.dueDate.getD task.dueDate
      ∧ r.column = updates.column.getD task.column
      ∧ r.createdAt = updates.createdAt.getD task.createdAt
      ∧ r.completedAt
          = if readProp updates.column = .str "done" ∧ task.column ≠ .str "done"
            then .str e.now else updates.completedAt.getD task.completedAt := by
  have hlt : i < w.state.tasks.length := by
    rcases List.getElem?_eq_some.1 ht with ⟨h, _⟩
    exact h
  obtain ⟨h1, h2, _⟩ := updateTask_found e updates hi ht
  refine ⟨merge task (trackColumn e task updates w).1, h1, ?_, ?_, ?_, ?_⟩
  · unfold taskAt
    rw [h2, List.getElem?_set_self hlt]
  · rw [h2, List.length_set]
  · intro j hj
    unfold taskAt
    rw [h2, List.getElem?_set_ne (Ne.symm hj)]
  · rw [trackColumn_fields]
    by_cases h : readProp updates.column = .str "done" ∧ task.column ≠ .str "done"
      <;> simp [merge, h]

/-- Witness for `updateTask_merge`: a new title for the sample task. -/
theorem updateTask_merge_witness :
    findIndex (fun t => t.id = sampleId) sampleWorld.state.tasks = some 0
    ∧ sampleWorld.state.tasks[0]? = some sampleTask
    ∧ ∃ r, (updateTask (envAt "t1") sampleId { title := some (.str "Report") } sampleWorld).1
          = some r
        ∧ r.title = JSVal.str "Report" ∧ r.column = sampleTask.column :=
  ⟨by decide, by decide,
    by
      obtain ⟨r, h1, _, _, _, _, h6, _, _, _, _, h11, _⟩ :=
        updateTask_merge (envAt "t1") sampleWorld sampleId { title := some (.str "Report") }
          0 sampleTask (by decide) (by decide)
      exact ⟨r, h1, h6, h11⟩⟩

/-! ## C9 -/

/-- C9 (code evaluated at the failing input): two `createTask` calls in which
`Date.now()` reads the same millisecond 1700000000000 and `Math.random()` gives
the same suffix `k3j9x0qzp` both return the id `task_1700000000000_k3j9x0qzp`;
the second call does not look at the collection, and the board then holds two
tasks with that one id. -/
theorem generateId_repeats_id :
    (createTask sampleCreateEnv { title := some (.str "a") } (emptyWorld [])).1.id
      = .str "task_1700000000000_k3j9x0qzp"
    ∧ (createTask sampleCreateEnv { title := some (.str "b") }
        (createTask sampleCreateEnv { title := some (.str "a") } (emptyWorld [])).2).1.id
      = .str "task_1700000000000_k3j9x0qzp"
    ∧ (run [.create sampleCreateEnv { title := some (.str "a") },
            .create sampleCreateEnv { title := some (.str "b") }]
          (emptyWorld [])).state.tasks.map (fun t => (t.id, t.title))
        = [(JSVal.str "task_1700000000000_k3j9x0qzp", JSVal.str "a"),
           (JSVal.str "task_1700000000000_k3j9x0qzp", JSVal.str "b")]
    ∧ ¬ ((run [.create sampleCreateEnv { title := some (.str "a") },
               .create sampleCreateEnv { title := some (.str "b") }]
          (emptyWorld [])).state.tasks.map (·.id)).Nodup := by
  decide

/-! ## C10 -/

/-- C10 (as stated, refuted): an `updateTask` call on the sample task whose
`updates` object carries `id` and `createdAt` stores a task with the new id
and the new creation time. -/
theorem update_overwrites_id_and_createdAt :
    (taskAt (updateTask (envAt "t1") sampleId
        { id := some (.str "task_x"), createdAt := some (.str "1999-01-01T00:00:00.000Z") }
        sampleWorld).2 0).map (fun t => (t.id, t.createdAt))
      = some (JSVal.str "task_x", JSVal.str "1999-01-01T00:00:00.000Z")
    ∧ JSVal.str "task_x" ≠ sampleTask.id
    ∧ JSVal.str "1999-01-01T00:00:00.000Z" ≠ sampleTask.createdAt
    ∧ taskAt sampleWorld 0 = some sampleTask := by
  decide

/-- C10 (amended): for a task found under `id` at index `i`, an `updateTask`
call whose `updates` object has no `id` property keeps the task's id, one
whose `updates` object has no `createdAt` property keeps its `createdAt`, and
every `moveTask` call keeps both. -/
theorem id_createdAt_kept (e : UpdateEnv) (w : World) (id : JSVal) (updates : Fields)
    (i : Nat) (task : Task)
    (hi : findIndex (fun t => t.id = id) w.state.tasks = some i)
    (ht : w.state.tasks[i]? = some task) :
    (updates.id = none →
        (taskAt (updateTask e id updates w).2 i).map (·.id) = some task.id)
    ∧ (updates.createdAt = none →
        (taskAt (updateTask e id updates w).2 i).map (·.createdAt) = some task.createdAt)
    ∧ (∀ c : JSVal,
        (taskAt (moveTask e id c w) i).map (fun t => (t.id, t.createdAt))
          = some (task.id, task.createdAt)) := by
  have hlt : i < w.state.tasks.length := by
    rcases List.getElem?_eq_some.1 ht with ⟨h, _⟩
    exact h
  obtain ⟨_, h2, _⟩ := updateTask_found e updates hi ht
  refine ⟨?_, ?_, ?_⟩
  · intro hid
    unfold taskAt
    rw [h2, List.getElem?_set_self hlt, trackColumn_fields]
    split_ifs <;> simp [merge, hid]
  · intro hc
    unfold taskAt
    rw [h2, List.getElem?_set_self hlt, trackColumn_fields]
    split_ifs <;> simp [merge, hc]
  · intro c
    obtain ⟨_, h⟩ := moveTask_task e c hi ht
    rw [h]
    rfl

/-- Witness for `id_createdAt_kept`: the sample task moved to `done`. -/
theorem id_createdAt_kept_witness :
    findIndex (fun t => t.id = sampleId) sampleWorld.state.tasks = some 0
    ∧ sampleWorld.state.tasks[0]? = some sampleTask
    ∧ (taskAt (moveTask (envAt "t1") sampleId (.str "done") sampleWorld) 0).map
        (fun t => (t.id, t.createdAt)) = some (sampleTask.id, sampleTask.createdAt) :=
  ⟨by decide, by decide,
    (id_createdAt_kept (envAt "t1") sampleWorld sampleId {} 0 sampleTask
      (by decide) (by decide)).2.2 (.str "done")⟩

/-! ## C11 -/

/-- C11 (as stated, refuted): a task created directly with column `done` is
in column `done` and its `completedAt` is `null`. -/
theorem created_in_done_has_null_completedAt :
    (run [.create sampleCreateEnv
            { title := some (.str "Write report"), column := some (.str "done") }]
        (emptyWorld [])).state.tasks.map (fun t => (t.column, t.completedAt))
      = [(JSVal.str "done", JSVal.null)] := by
  decide

/-- C11 (amended): in a state reached from the empty collection by
`createTask`, `updateTask`, `moveTask` and `deleteTask` calls, none of the
`updateTask` calls carrying an `id` or `completedAt` property: (1) a task whose
`completedAt` is not `null` holds a timestamp there, and some state of the
history holds a task with its id in column `done`; (2) a `moveTask` to `done`
of a task that is in another column leaves its `completedAt` equal to the
call time, hence not `null`; (3) `createTask` returns a record whose
`completedAt` is `null`, whatever column it is given. -/
theorem completedAt_only_after_done (ds : List Deliverable) (ops : List Op)
    (h : ∀ op ∈ ops, plainOp op = true) :
    (∀ t ∈ (run ops (emptyWorld ds)).state.tasks, t.completedAt ≠ .null →
      (∃ s, t.completedAt = .str s)
      ∧ ∃ k, k ≤ ops.length ∧ ∃ u ∈ (run (ops.take k) (emptyWorld ds)).state.tasks,
          u.id = t.id ∧ u.column = .str "done")
    ∧ (∀ (e : UpdateEnv) (id : JSVal) (i : Nat) (task : Task),
        findIndex (fun t => t.id = id) (run ops (emptyWorld ds)).state.tasks = some i →
        (run ops (emptyWorld ds)).state.tasks[i]? = some task →
        task.column ≠ .str "done" →
        (taskAt (moveTask e id (.str "done") (run ops (emptyWorld ds))) i).map (·.completedAt)
          = some (.str e.now))
    ∧ (∀ (e : CreateEnv) (data : Fields),
        (createTask e data (run ops (emptyWorld ds))).1.completedAt = .null) := by
  refine ⟨?_, ?_, ?_⟩
  · exact run_completedAt_origin (emptyWorld ds) rfl ops h
  · intro e id i task hi ht hcol
    obtain ⟨_, h2⟩ := moveTask_task e (.str "done") hi ht
    rw [h2]
    simp [hcol]
  · intro e data
    rfl

/-- Witness for `completedAt_only_after_done`: the sample task created and
moved to `done` at `t1`. -/
theorem completedAt_only_after_done_witness :
    (∀ op ∈ [Op.create sampleCreateEnv
              { title := some (.str "Write report"), column := some (.str "todo") },
             Op.move (envAt "t1") sampleId (.str "done")], plainOp op = true)
    ∧ ∀ t ∈ (run [Op.create sampleCreateEnv
              { title := some (.str "Write report"), column := some (.str "todo") },
             Op.move (envAt "t1") sampleId (.str "done")] (emptyWorld [])).state.tasks,
        t.completedAt ≠ .null → ∃ s, t.completedAt = .str s :=
  ⟨by decide,
    fun t ht hne =>
      ((completedAt_only_after_done []
        [Op.create sampleCreateEnv
            { title := some (.str "Write report"), column := some (.str "todo") },
         Op.move (envAt "t1") sampleId (.str "done")] (by decide)).1 t ht hne).1⟩

/-! ## C12 -/

/-- C12 (as stated, refuted): `createTask` with the column string `someday`
puts a task on the board whose column is none of the four. -/
theorem unknown_column_is_stored :
    (run [.create sampleCreateEnv
            { title := some (.str "Write report"), column := some (.str "someday") }]
        (emptyWorld [])).state.tasks.map (·.column) = [JSVal.str "someday"]
    ∧ validColumn (.str "someday") = false := by
  decide

/-- C12 (amended): in a state reached from the empty collection by
`createTask`, `updateTask`, `moveTask` and `deleteTask` calls in which every
column passed is one of `todo`, `progress`, `done`, `archived` (a `createTask`
call may also pass no column or a falsy one, an `updateTask` call may pass no
column), every task has one of these four columns. -/
theorem columns_stay_valid (ds : List Deliverable) (ops : List Op)
    (h : ∀ op ∈ ops, opColumnValid op = true) :
    ∀ t ∈ (run ops (emptyWorld ds)).state.tasks,
      t.column = .str "todo" ∨ t.column = .str "progress" ∨ t.column = .str "done"
        ∨ t.column = .str "archived" := by
  intro t ht
  have hv := run_columns_valid ops (emptyWorld ds) (by simp [emptyWorld]) h t ht
  simpa [validColumn, or_assoc] using hv

/-- Witness for `columns_stay_valid`: a task created without a column and
moved to `archived`. -/
theorem columns_stay_valid_witness :
    (∀ op ∈ [Op.create sampleCreateEnv { title := some (.str "Write report") },
             Op.move (envAt "t1") sampleId (.str "archived")], opColumnValid op = true)
    ∧ ∀ t ∈ (run [Op.create sampleCreateEnv { title := some (.str "Write report") },
             Op.move (envAt "t1") sampleId (.str "archived")] (emptyWorld [])).state.tasks,
        t.column = .str "todo" ∨ t.column = .str "progress" ∨ t.column = .str "done"
          ∨ t.column = .str "archived" :=
  ⟨by decide,
    columns_stay_valid []
      [Op.create sampleCreateEnv { title := some (.str "Write report") },
       Op.move (envAt "t1") sampleId (.str "archived")] (by decide)⟩

/-! ## C13 -/

/-- C13: for every state, writing it with `saveState` (the write succeeding)
and reading it back with `loadState` into the freshly initialised `state`
gives the same task collection and the same action log, each task with its
nine fields as they were (a `null` `dueDate` or `completedAt` stays `null`). -/
theorem loadState_after_saveState (w : World) :
    (loadState { state := initialState, store := (saveState true w).store }).state.tasks
        = w.state.tasks
    ∧ (loadState { state := initialState, store := (saveState true w).store }).state.actionLog
        = w.state.actionLog
    ∧ (∀ t : Task, t.dueDate = .null → t.completedAt = .null →
        (decodeTask (Task.toJson t)).dueDate = .null
          ∧ (decodeTask (Task.toJson t)).completedAt = .null) := by
  refine ⟨?_, ?_, ?_⟩
  · simp only [loadState, saveState, if_true, stringify, Json.get, lookupKey, arrayOr]
    exact map_decode_encode _ _ decodeTask_toJson _
  · simp only [loadState, saveState, if_true, stringify, Json.get, lookupKey, arrayOr]
    simp only [show ("tasks" = "actionLog") = False from by decide, if_false]
    exact map_decode_encode _ _ decodeLogEntry_toJson _
  · intro t h1 h2
    rw [decodeTask_toJson]
    exact ⟨h1, h2⟩

/-- Witness for `loadState_after_saveState`: the sample task, whose `dueDate`
and `completedAt` are `null`. -/
theorem loadState_after_saveState_witness :
    sampleTask.dueDate = .null ∧ sampleTask.completedAt = .null
    ∧ (decodeTask (Task.toJson sampleTask)).dueDate = .null
    ∧ (decodeTask (Task.toJson sampleTask)).completedAt = .null :=
  ⟨rfl, rfl, (loadState_after_saveState sampleWorld).2.2 sampleTask rfl rfl⟩

/-! ## C14 -/

/-- C14: the flag `isOverdue` of a card is true exactly when `dueDate` is set
(truthy), the date it denotes is before `now`, and the column is neither
`done` nor `archived`; the list `overdueTasks` of the weekly summary is the
collection filtered by that same flag; so a task in `todo` whose due date
lies before `now` is overdue, and the same task, once `updateTask` has put it
in `done`, is not. -/
theorem overdue_classification (parseDate : String → Option Int) (now : Int) :
    (∀ task : Task, isOverdue parseDate now task = true ↔
        (task.dueDate.truthy = true
          ∧ (∃ d, newDate parseDate task.dueDate = some d ∧ d < now)
          ∧ task.column ≠ .str "done" ∧ task.column ≠ .str "archived"))
    ∧ (∀ s : AppState,
        (getWeeklySummary parseDate now s).overdueTasks = s.tasks.filter (isOverdue parseDate now)
        ∧ (getWeeklySummary parseDate now s).overdue
            = (s.tasks.filter (isOverdue parseDate now)).length)
    ∧ (∀ (e : UpdateEnv) (w : World) (id : JSVal) (i : Nat) (task : Task) (due : String) (d : Int),
        findIndex (fun t => t.id = id) w.state.tasks = some i →
        w.state.tasks[i]? = some task →
        task.column = .str "todo" → task.dueDate = .str due → due ≠ "" →
        parseDate due = some d → d < now →
        isOverdue parseDate now task = true
        ∧ ∃ r, taskAt (updateTask e id { column := some (.str "done") } w).2 i = some r
            ∧ isOverdue parseDate now r = false) := by
  have hiff : ∀ task : Task, isOverdue parseDate now task = true ↔
        (task.dueDate.truthy = true
          ∧ (∃ d, newDate parseDate task.dueDate = some d ∧ d < now)
          ∧ task.column ≠ .str "done" ∧ task.column ≠ .str "archived") := by
    intro task
    unfold isOverdue
    cases hd : newDate parseDate task.dueDate with
    | none => simp [dateLt]
    | some d => simp [dateLt, and_assoc]
  refine ⟨hiff, ?_, ?_⟩
  · intro s
    exact ⟨rfl, rfl⟩
  · intro e w id i task due d hi ht hcol hdue hne hp hlt
    constructor
    · rw [hiff]
      refine ⟨by simp [hdue, JSVal.truthy, hne], ⟨d, by simp [hdue, newDate, hp], hlt⟩, ?_, ?_⟩
      · rw [hcol]; decide
      · rw [hcol]; decide
    · obtain ⟨_, h2⟩ := moveTask_task e (.str "done") hi ht
      refine ⟨_, h2, ?_⟩
      simp [isOverdue]

/-- Witness for `overdue_classification`: the sample task given a due date
one day before `now`. -/
theorem overdue_classification_witness :
    isOverdue (fun _ => some 1699913600000) 1700000000000
        { sampleTask with dueDate := .str "2023-11-13" } = true
    ∧ ∃ r, taskAt (updateTask (envAt "t1") sampleId { column := some (.str "done") }
          { state := { sampleWorld.state with
              tasks := [{ sampleTask with dueDate := .str "2023-11-13" }] },
            store := none }).2 0 = some r
        ∧ isOverdue (fun _ => some 1699913600000) 1700000000000 r = false :=
  (overdue_classification (fun _ => some 1699913600000) 1700000000000).2.2 (envAt "t1")
    { state := { sampleWorld.state with
        tasks := [{ sampleTask with dueDate := .str "2023-11-13" }] },
      store := none }
    sampleId 0 { sampleTask with dueDate := .str "2023-11-13" } "2023-11-13" 1699913600000
    (by decide) (by decide) rfl rfl (by decide) rfl (by decide)

/-! ## C15 -/

/-- C15 (as stated, refuted): for a collection holding one task whose column
is `someday`, the four counts of `renderColumns` sum to 0 while the collection
has 1 task. -/
theorem counts_miss_unknown_column :
    ((renderColumns { sampleWorld.state with
        tasks := [{ sampleTask with column := .str "someday" }] }).map (fun x => x.2.2)).sum = 0
    ∧ ({ sampleWorld.state with
        tasks := [{ sampleTask with column := .str "someday" }] } : AppState).tasks.length = 1 := by
  decide

/-- C15 (amended): for every task collection, `renderColumns` computes for
`todo`, `progress`, `done`, `archived` in turn the tasks of that column, each
list a sub-sequence of the collection in collection order, with its length
as count; a task with one of the four columns is in exactly one of the
lists; the four counts sum to the number of tasks whose column is one of
the four, which is the collection size when every task has such a column;
and `renderStats` gives the lengths of the `todo`, `progress` and `done`
lists, none of which holds an archived task. -/
theorem renderColumns_partition (s : AppState) :
    renderColumns s
        = [("todo", s.tasks.filter (fun t => t.column = .str "todo"),
              (s.tasks.filter (fun t => t.column = .str "todo")).length),
           ("progress", s.tasks.filter (fun t => t.column = .str "progress"),
              (s.tasks.filter (fun t => t.column = .str "progress")).length),
           ("done", s.tasks.filter (fun t => t.column = .str "done"),
              (s.tasks.filter (fun t => t.column = .str "done")).length),
           ("archived", s.tasks.filter (fun t => t.column = .str "archived"),
              (s.tasks.filter (fun t => t.column = .str "archived")).length)]
    ∧ (∀ c, (columnTasks s c).Sublist s.tasks)
    ∧ (∀ t ∈ s.tasks, validColumn t.column = true →
        ∃! c, c ∈ boardColumns ∧ t ∈ columnTasks s c)
    ∧ ((renderColumns s).map (fun x => x.2.2)).sum
        = (s.tasks.filter (fun t => validColumn t.column)).length
    ∧ ((∀ t ∈ s.tasks, validColumn t.column = true) →
        ((renderColumns s).map (fun x => x.2.2)).sum = s.tasks.length)
    ∧ renderStats s
        = ((columnTasks s "todo").length, (columnTasks s "progress").length,
            (columnTasks s "done").length)
    ∧ (∀ t, t.column = .str "archived" →
        t ∉ columnTasks s "todo" ∧ t ∉ columnTasks s "progress" ∧ t ∉ columnTasks s "done") := by
  have hsum : ((renderColumns s).map (fun x => x.2.2)).sum
      = (s.tasks.filter (fun t => validColumn t.column)).length := by
    rw [← column_counts_sum]
    rfl
  refine ⟨rfl, ?_, ?_, hsum, ?_, rfl, ?_⟩
  · intro c
    exact List.filter_sublist _
  · intro t ht hv
    simp only [validColumn, Bool.or_eq_true, decide_eq_true_eq] at hv
    have hmem : ∀ c : String, t.column = .str c → t ∈ columnTasks s c := by
      intro c hc
      simp [columnTasks, ht, hc]
    have huniq : ∀ c c1 : String, t.column = .str c → t ∈ columnTasks s c1 → c1 = c := by
      intro c c1 hc h1
      simp only [columnTasks, List.mem_filter, decide_eq_true_eq] at h1
      rw [hc] at h1
      exact (JSVal.str.inj h1.2).symm
    rcases hv with ((h | h) | h) | h
    · exact ⟨"todo", ⟨by decide, hmem _ h⟩, fun c1 hc1 => huniq _ c1 h hc1.2⟩
    · exact ⟨"progress", ⟨by decide, hmem _ h⟩, fun c1 hc1 => huniq _ c1 h hc1.2⟩
    · exact ⟨"done", ⟨by decide, hmem _ h⟩, fun c1 hc1 => huniq _ c1 h hc1.2⟩
    · exact ⟨"archived", ⟨by decide, hmem _ h⟩, fun c1 hc1 => huniq _ c1 h hc1.2⟩
  · intro hall
    rw [hsum, List.filter_eq_self.2 hall]
  · intro t ht
    have hn : ∀ c : String, c ≠ "archived" → t ∉ columnTasks s c := by
      intro c hc hmem
      simp only [columnTasks, List.mem_filter, decide_eq_true_eq] at hmem
      rw [ht] at hmem
      exact hc (JSVal.str.inj hmem.2).symm
    exact ⟨hn _ (by decide), hn _ (by decide), hn _ (by decide)⟩

/-- Witness for `renderColumns_partition`: the sample board, one task in
`todo`. -/
theorem renderColumns_partition_witness :
    (∀ t ∈ sampleWorld.state.tasks, validColumn t.column = true)
    ∧ ((renderColumns sampleWorld.state).map (fun x => x.2.2)).sum
        = sampleWorld.state.tasks.length :=
  ⟨by decide, (renderColumns_partition sampleWorld.state).2.2.2.2.1 (by decide)⟩

/-! ## C16 -/

/-- C16 (code evaluated at the failing input): on a first visit, in a browser
five hours behind UTC, `checkRecurringTasks` runs at 18:00 and again at 20:00
local time on Monday 15 January 2024 (23:00 and 01:00 UTC).  The first run
creates one task for the weekly and one for the daily definition and stamps
`lastRun = "2024-01-15"`; the second run, on the same local day, reads the UTC
date `2024-01-16` and creates both tasks again.  Had the second run read the
same UTC date, it would have created none. -/
theorem recurring_task_created_twice_on_one_local_day :
    mondayEvening.weekday = mondayNight.weekday
    ∧ mondayEvening.dayOfMonth = mondayNight.dayOfMonth
    ∧ (checkRecurringTasks (recurEnvAt mondayEvening 1705359600000) sampleFeatures
          (emptyWorld [])).2.state.tasks.map (·.title)
        = [JSVal.str "Weekly team sync", JSVal.str "Check ARK trades"]
    ∧ (checkRecurringTasks (recurEnvAt mondayEvening 1705359600000) sampleFeatures
          (emptyWorld [])).1.state.recurringTasks.map (·.lastRun)
        = [JSVal.str "2024-01-15", JSVal.null, JSVal.str "2024-01-15"]
    ∧ (checkRecurringTasks (recurEnvAt mondayNight 1705366800000)
          (checkRecurringTasks (recurEnvAt mondayEvening 1705359600000) sampleFeatures
            (emptyWorld [])).1
          (checkRecurringTasks (recurEnvAt mondayEvening 1705359600000) sampleFeatures
            (emptyWorld [])).2).2.state.tasks.map (·.title)
        = [JSVal.str "Weekly team sync", JSVal.str "Check ARK trades",
           JSVal.str "Weekly team sync", JSVal.str "Check ARK trades"]
    ∧ (checkRecurringTasks (recurEnvAt mondayEvening 1705361400000)
          (checkRecurringTasks (recurEnvAt mondayEvening 1705359600000) sampleFeatures
            (emptyWorld [])).1
          (checkRecurringTasks (recurEnvAt mondayEvening 1705359600000) sampleFeatures
            (emptyWorld [])).2).2.state.tasks.map (·.title)
        = [JSVal.str "Weekly team sync", JSVal.str "Check ARK trades"] := by
  decide

/-! ## C17 -/

/-- C17 (as stated, refuted): on the first visit of Monday 15 January 2024
with `window.MillieDashboard` not set, the weekly and the daily definition
should run and have `lastRun` different from today, yet `checkRecurringTasks`
creates no task (it does stamp their `lastRun`). -/
theorem recurring_task_not_created_without_dashboard :
    (sampleFeatures.state.recurringTasks.filter (isDue mondayEvening)).map (·.title)
      = [JSVal.str "Weekly team sync", JSVal.str "Check ARK trades"]
    ∧ (checkRecurringTasks { recurEnvAt mondayEvening 1705359600000 with dashboard := false }
          sampleFeatures (emptyWorld [])).2.state.tasks = []
    ∧ (checkRecurringTasks { recurEnvAt mondayEvening 1705359600000 with dashboard := false }
          sampleFeatures (emptyWorld [])).1.state.recurringTasks.map (·.lastRun)
        = [JSVal.str "2024-01-15", JSVal.null, JSVal.str "2024-01-15"] := by
  decide

/-- C17 (amended): `shouldRecurringTaskRun(rt, now)` is true for frequency
`daily`, says whether the local weekday name of `now` is `rt.day` for
`weekly`, whether the local day of the month of `now` is `rt.day` for
`monthly`, and is false for any other frequency; when `window.MillieDashboard`
is set, `checkRecurringTasks` stamps `lastRun = today` (the date read from
`now.toISOString()`) on exactly the definitions for which it is true and
`lastRun` differs from `today`, leaves the others as they are, and appends
for each stamped definition, in order, one task titled `rt.title` in column
`todo`; when `window.MillieDashboard` is not set, it creates no task. -/
theorem checkRecurringTasks_runs_due_definitions (e : RecurEnv) (f : FeaturesWorld)
    (w : World) :
    (∀ rt : RecurringTask,
        (rt.frequency = .str "daily" → shouldRecurringTaskRun rt e.now = true)
        ∧ (rt.frequency = .str "weekly" →
            (shouldRecurringTaskRun rt e.now = true ↔ JSVal.str e.now.weekday = rt.day))
        ∧ (rt.frequency = .str "monthly" →
            (shouldRecurringTaskRun rt e.now = true ↔ JSVal.str e.now.dayOfMonth = rt.day))
        ∧ (rt.frequency ≠ .str "daily" → rt.frequency ≠ .str "weekly" →
            rt.frequency ≠ .str "monthly" → shouldRecurringTaskRun rt e.now = false))
    ∧ (e.dashboard = true →
        (checkRecurringTasks e f w).1.state.recurringTasks
            = f.state.recurringTasks.map (fun rt =>
                if isDue e.now rt = true then { rt with lastRun := .str e.now.isoDate } else rt)
        ∧ (checkRecurringTasks e f w).2.state.tasks.map (fun t => (t.title, t.column))
            = w.state.tasks.map (fun t => (t.title, t.column))
              ++ (f.state.recurringTasks.filter (isDue e.now)).map
                  (fun rt => (rt.title, JSVal.str "todo")))
    ∧ (e.dashboard = false → (checkRecurringTasks e f w).2 = w) := by
  have hdue : ∀ rt : RecurringTask,
      (shouldRecurringTaskRun rt e.now = true ∧ rt.lastRun ≠ .str e.now.isoDate)
        ↔ isDue e.now rt = true := by
    intro rt
    simp [isDue]
  refine ⟨?_, ?_, ?_⟩
  · intro rt
    refine ⟨?_, ?_, ?_, ?_⟩
    · intro h
      simp [shouldRecurringTaskRun, h]
    · intro h
      simp [shouldRecurringTaskRun, h]
    · intro h
      simp [shouldRecurringTaskRun, h]
    · intro h1 h2 h3
      simp [shouldRecurringTaskRun, h1, h2, h3]
  · intro hd
    constructor
    · simp only [checkRecurringTasks, saveFeaturesState_state,
        (checkLoop_spec e e.now.isoDate f.state.recurringTasks 0 w).1, hdue]
    · simp only [checkRecurringTasks,
        (checkLoop_spec e e.now.isoDate f.state.recurringTasks 0 w).2.1 hd, hdue,
        Bool.decide_eq_true]
  · intro hd
    simp only [checkRecurringTasks,
      (checkLoop_spec e e.now.isoDate f.state.recurringTasks 0 w).2.2 hd]

/-- Witness for `checkRecurringTasks_runs_due_definitions`: the first visit on
Monday 15 January 2024, the dashboard being loaded. -/
theorem checkRecurringTasks_runs_due_definitions_witness :
    (recurEnvAt mondayEvening 1705359600000).dashboard = true
    ∧ (checkRecurringTasks (recurEnvAt mondayEvening 1705359600000) sampleFeatures
          (emptyWorld [])).2.state.tasks.map (fun t => (t.title, t.column))
        = [(JSVal.str "Weekly team sync", JSVal.str "todo"),
           (JSVal.str "Check ARK trades", JSVal.str "todo")] :=
  ⟨rfl,
    ((checkRecurringTasks_runs_due_definitions (recurEnvAt mondayEvening 1705359600000)
      sampleFeatures (emptyWorld [])).2.1 rfl).2.trans (by decide)⟩

/-! ## C18 -/

/-- C18: for `logAction`, `createTask`, `updateTask` and `deleteTask`, two
calls on the same state that get the same clock readings, the same random
suffix and the same arguments return the same value and leave the same
in-memory state (task collection, action log), whichever of their store
writes succeed or fail; and when the last write of a call succeeds, the store
holds the in-memory state the call ends with. -/
theorem write_failure_is_swallowed (w : World) :
    (∀ (e1 e2 : LogEnv) (text : String), e1.now = e2.now →
        (logAction e1 text w).state = (logAction e2 text w).state)
    ∧ (∀ (e1 e2 : CreateEnv) (data : Fields), e1.dateNow = e2.dateNow →
        e1.random = e2.random → e1.now = e2.now → e1.log.now = e2.log.now →
        (createTask e1 data w).1 = (createTask e2 data w).1
          ∧ (createTask e1 data w).2.state = (createTask e2 data w).2.state)
    ∧ (∀ (e1 e2 : UpdateEnv) (id : JSVal) (updates : Fields), e1.now = e2.now →
        e1.log.now = e2.log.now →
        (updateTask e1 id updates w).1 = (updateTask e2 id updates w).1
          ∧ (updateTask e1 id updates w).2.state = (updateTask e2 id updates w).2.state)
    ∧ (∀ (e1 e2 : DeleteEnv) (id : JSVal), e1.log.now = e2.log.now →
        (deleteTask e1 id w).state = (deleteTask e2 id w).state)
    ∧ (∀ (e : LogEnv) (text : String), e.writeOk = true →
        (logAction e text w).store = some (logAction e text w).state)
    ∧ (∀ (e : CreateEnv) (data : Fields), e.log.writeOk = true →
        (createTask e data w).2.store = some (createTask e data w).2.state)
    ∧ (∀ (e : UpdateEnv) (id : JSVal) (updates : Fields), e.writeOk = true →
        (updateTask e id updates w).1 ≠ none →
        (updateTask e id updates w).2.store = some (updateTask e id updates w).2.state)
    ∧ (∀ (e : DeleteEnv) (id : JSVal), e.writeOk = true →
        (deleteTask e id w).store = some (deleteTask e id w).state) := by
  refine ⟨?_, ?_, ?_, ?_, ?_, ?_, ?_, ?_⟩
  · intro e1 e2 text hn
    exact logAction_state_congr e1 e2 hn text rfl
  · intro e1 e2 data hd hr hn hl
    exact createTask_congr e1 e2 hd hr hn hl data w
  · intro e1 e2 id updates hn hl
    exact updateTask_congr e1 e2 hn hl id updates w
  · intro e1 e2 id hl
    exact deleteTask_congr e1 e2 hl id w
  · intro e text h
    exact logAction_store e text w h
  · intro e data h
    unfold createTask
    exact logAction_store _ _ _ h
  · intro e id updates h hne
    unfold updateTask at hne ⊢
    cases hi : findIndex (fun t => t.id = id) w.state.tasks with
    | none => simp [hi] at hne
    | some i =>
      cases ht : w.state.tasks[i]? with
      | none => simp [hi, ht] at hne
      | some task =>
        simp only [h, ht]
        exact saveState_store _
  · intro e id h
    unfold deleteTask
    simp only [h]
    exact saveState_store _

/-- Witness for `write_failure_is_swallowed`: moving the sample task to `done`
with every write failing gives the state and the result of the same call
with every write succeeding. -/
theorem write_failure_is_swallowed_witness :
    (updateTask { now := "t1", log := { now := "t1", writeOk := false }, writeOk := false }
        sampleId { column := some (.str "done") } sampleWorld).1
      = (updateTask (envAt "t1") sampleId { column := some (.str "done") } sampleWorld).1
    ∧ (updateTask { now := "t1", log := { now := "t1", writeOk := false }, writeOk := false }
        sampleId { column := some (.str "done") } sampleWorld).2.state
      = (updateTask (envAt "t1") sampleId { column := some (.str "done") } sampleWorld).2.state :=
  (write_failure_is_swallowed sampleWorld).2.2.1
    { now := "t1", log := { now := "t1", writeOk := false }, writeOk := false } (envAt "t1")
    sampleId { column := some (.str "done") } rfl rfl

/-! ## C19 -/

/-- C19 (code evaluated at the failing input): on the first-visit state,
`updateProjectProgress('constructor', 50)` finds the inherited
`Object.prototype.constructor` under the id, so it stores no record: after the
call `projectProgress` still has no record named `constructor` (none with
status `active`), and the number 50 has been written on the inherited value.
For an id that no object inherits, such as `roadmap`, the same call stores the
record with the clamped progress and status `active`. -/
theorem updateProjectProgress_misses_inherited_name :
    sampleFeatures.state.projectProgress "constructor" = none
    ∧ (updateProjectProgress true "constructor" 50 sampleFeatures).state.projectProgress
        "constructor" = none
    ∧ (updateProjectProgress true "constructor" 50 sampleFeatures).inheritedProgress
        = [("constructor", 50)]
    ∧ sampleFeatures.state.projectProgress "roadmap" = none
    ∧ (updateProjectProgress true "roadmap" 150 sampleFeatures).state.projectProgress "roadmap"
        = some { progress := 100, status := .str "active" }
    ∧ (updateProjectProgress true "roadmap" 150 sampleFeatures).inheritedProgress = [] := by
  decide

end Millie
